import Mathlib

/-!
# Verification of the participants-id identifier library

This file is a shallow embedding, in Lean 4, of the core logic of the
participants-id repository: the dependency-free UUIDv7 generator, the
`Participant` class of the JS/TS implementation (`src/participants-id.ts`,
the file with the `generate_uuidv7` helper), the older `Participant`
variant (`src/index.ts`, prefix `participant_id`), and the Flutter/Dart
`Participant` (`lib/participants_id.dart`).

Browser `localStorage` is modelled as an association list from string keys
to string values.  JavaScript truthiness tests on stored strings (`if (id)`)
are modelled explicitly: `null`/`undefined` and the empty string are falsy.
The ECMAScript `JSON.stringify` / `JSON.parse` built-ins are modelled on the
value domain the library stores (null, booleans, integer-valued numbers,
strings, arrays, objects); non-integral numbers are outside the model.
Exceptions thrown by storage writes are modelled by a per-key success
oracle; a failing write leaves the store unchanged, as a thrown
`setItem` does.
-/

namespace PId

/-- The browser `localStorage` (and Dart `SharedPreferences` string slots):
an association list from keys to string values.  `getItem` returns the
first binding of the key. -/
abbrev Store := List (String × String)

/-- `localStorage.getItem`: the stored value, or `none` (JS `null`). -/
def getItem : Store → String → Option String
  | [], _ => none
  | (k', v) :: rest, k => if k' = k then some v else getItem rest k

/-- `localStorage.setItem`: replaces the binding of `k`, or appends one. -/
def setItem : Store → String → String → Store
  | [], k, v => [(k, v)]
  | (k', v') :: rest, k, v =>
    if k' = k then (k, v) :: rest else (k', v') :: setItem rest k v

/-- `localStorage.removeItem`: drops every binding of `k`. -/
def removeItem : Store → String → Store
  | [], _ => []
  | (k', v) :: rest, k =>
    if k' = k then removeItem rest k else (k', v) :: removeItem rest k

/-- JavaScript truthiness of a `string | null | undefined` value:
`null`, `undefined` and the empty string are falsy. -/
def truthy : Option String → Bool
  | none => false
  | some s => !(s == "")

/- ## Hexadecimal rendering (the dependency-free UUIDv7 generator) -/

/-- One lowercase hexadecimal digit, as emitted by JS `Number.toString(16)`
for a nibble value `n < 16`. -/
def hexChar (n : Nat) : Char :=
  if n < 10 then Char.ofNat (48 + n) else Char.ofNat (87 + n)

/-- Fixed-width big-endian lowercase hex rendering: for `n < 16 ^ w` this is
exactly JS `n.toString(16).padStart(w, '0')`. -/
def padHex : Nat → Nat → List Char
  | _, 0 => []
  | n, w + 1 => padHex (n / 16) w ++ [hexChar (n % 16)]

/-- Two-digit hex of one byte, i.e. JS `b.toString(16).padStart(2, '0')`
for `b < 256`. -/
def byteHex (b : Nat) : List Char := padHex b 2

/-- Value of one hexadecimal digit character, `none` for a non-digit. -/
def hexVal? (c : Char) : Option Nat :=
  if '0' ≤ c ∧ c ≤ '9' then some (c.toNat - 48)
  else if 'a' ≤ c ∧ c ≤ 'f' then some (c.toNat - 87)
  else if 'A' ≤ c ∧ c ≤ 'F' then some (c.toNat - 55)
  else none

/-- Big-endian value of a list of hex digit characters (non-digits count 0). -/
def parseHex (cs : List Char) : Nat :=
  cs.foldl (fun acc c => acc * 16 + (hexVal? c).getD 0) 0

/-- Is `c` a lowercase hexadecimal digit (`0`-`9`, `a`-`f`)? -/
def isHexLowerChar (c : Char) : Bool :=
  ('0' ≤ c && c ≤ '9') || ('a' ≤ c && c ≤ 'f')

/- ## The generator: `generate_uuidv7` (src/participants-id.ts) -/

/-- The Web-Crypto path of `generate_uuidv7`.  `now` is `Date.now()` (real
clock, milliseconds); `rnd i` is the `i`-th byte filled in by
`crypto.getRandomValues` (each `< 256`).  Bytes 0-5 are overwritten with the
big-endian timestamp (`(now / 2 ^ (8 * k)) & 0xff`; the JS `&` wraps its
operand modulo `2 ^ 32` first, which does not change the low byte), byte 6
gets the version `(b & 0x0f) | 0x70`, byte 8 the variant
`(b & 0x3f) | 0x80`, and the 16 bytes are rendered as the canonical
8-4-4-4-12 hyphenated string. -/
def generate_uuidv7_crypto (now : Nat) (rnd : Fin 16 → Nat) : String :=
  let b0 := now / 0x10000000000 &&& 0xff
  let b1 := now / 0x100000000 &&& 0xff
  let b2 := now / 0x1000000 &&& 0xff
  let b3 := now / 0x10000 &&& 0xff
  let b4 := now / 0x100 &&& 0xff
  let b5 := now &&& 0xff
  let b6 := (rnd 6 &&& 0x0f) ||| 0x70
  let b8 := (rnd 8 &&& 0x3f) ||| 0x80
  String.mk
    (byteHex b0 ++ byteHex b1 ++ byteHex b2 ++ byteHex b3 ++
      '-' :: (byteHex b4 ++ byteHex b5) ++
      '-' :: (byteHex b6 ++ byteHex (rnd 7)) ++
      '-' :: (byteHex b8 ++ byteHex (rnd 9)) ++
      '-' :: (byteHex (rnd 10) ++ byteHex (rnd 11) ++ byteHex (rnd 12) ++
        byteHex (rnd 13) ++ byteHex (rnd 14) ++ byteHex (rnd 15)))

/-- The table `['8', '9', 'a', 'b']` of variant characters used by the
fallback path. -/
def variantChars : List Char := ['8', '9', 'a', 'b']

/-- The `Math.random` fallback path of `generate_uuidv7`.  `now` is
`Date.now()` (the timestamp segment is always the real clock, also in the
fallback); `randA < 0xfff`, `randB1 < 0xfff` and `randB2 < 0xffffffffffff`
are the `Math.floor(Math.random() * …)` draws, `variantIdx < 4` selects the
variant character.  The string is assembled as
`tsHex[0..8]-tsHex[8..12]-7{randA}-{variant}{randB1}-{randB2}` where each
piece is `toString(16).padStart(width, '0')`. -/
def generate_uuidv7_fallback (now randA variantIdx randB1 randB2 : Nat) : String :=
  let tsHex := padHex now 12
  let variant := variantChars.getD variantIdx '8'
  String.mk
    (tsHex.take 8 ++
      '-' :: tsHex.drop 8 ++
      '-' :: '7' :: padHex randA 3 ++
      '-' :: variant :: padHex randB1 3 ++
      '-' :: padHex randB2 12)

/-- The canonical-identifier check of claim C2: a 36-character lowercase
8-4-4-4-12 hyphenated hex string, version nibble (13th hex digit, index 14)
equal to `7`, variant nibble (17th hex digit, index 19) in `{8, 9, a, b}`,
whose first 48 bits (hex digits 1-12, i.e. indices 0-7 and 9-12) are `now`
big-endian. -/
def checkCanonicalV7 (now : Nat) (s : String) : Bool :=
  let cs := s.data
  cs.length == 36 &&
  (cs.getD 8 ' ' == '-') && (cs.getD 13 ' ' == '-') &&
  (cs.getD 18 ' ' == '-') && (cs.getD 23 ' ' == '-') &&
  (cs.take 8 ++ (cs.drop 9).take 4 ++ (cs.drop 14).take 4 ++
    (cs.drop 19).take 4 ++ cs.drop 24).all isHexLowerChar &&
  (cs.getD 14 ' ' == '7') &&
  variantChars.contains (cs.getD 19 ' ') &&
  (parseHex (cs.take 8 ++ (cs.drop 9).take 4) == now)

/- ## The ECMAScript JSON built-ins, on the library's value domain

`set_attribute` serializes with `JSON.stringify` and `get_attribute`
deserializes with `JSON.parse`.  These are platform built-ins, not
repository code; they are modelled here on the JSON value domain the
library stores.  Numbers are modelled as integers: JavaScript numbers are
IEEE doubles, whose textual round trip is outside this embedding. -/

/-- A JSON value (JS numbers restricted to integers, see above). -/
inductive JsVal where
  | null : JsVal
  | bool (b : Bool) : JsVal
  | num (n : Int) : JsVal
  | str (s : String) : JsVal
  | arr (elems : List JsVal) : JsVal
  | obj (fields : List (String × JsVal)) : JsVal

/-- `JSON.stringify` escaping of one character inside a string literal. -/
def escapeChar (c : Char) : List Char :=
  if c = '"' then ['\\', '"']
  else if c = '\\' then ['\\', '\\']
  else if c = '\x08' then ['\\', 'b']
  else if c = '\x0c' then ['\\', 'f']
  else if c = '\n' then ['\\', 'n']
  else if c = '\r' then ['\\', 'r']
  else if c = '\t' then ['\\', 't']
  else if c.toNat < 32 then
    ['\\', 'u', '0', '0', hexChar (c.toNat / 16), hexChar (c.toNat % 16)]
  else [c]

/-- A JSON string literal: quote, escape each character, quote. -/
def quoteString (s : String) : List Char :=
  '"' :: (s.data.map escapeChar).flatten ++ ['"']

/-- Decimal digits of a natural number, most significant first,
accumulator style. -/
def natDecAux (n : Nat) (acc : List Char) : List Char :=
  let acc' := hexChar (n % 10) :: acc
  if n < 10 then acc' else natDecAux (n / 10) acc'
termination_by n
decreasing_by exact Nat.div_lt_self (by omega) (by omega)

/-- Decimal rendering of a natural number. -/
def natDecChars (n : Nat) : List Char := natDecAux n []

/-- Decimal rendering of an integer (`String(n)` for an integral JS
number). -/
def intDecChars (i : Int) : List Char :=
  if i < 0 then '-' :: natDecChars i.natAbs else natDecChars i.toNat

mutual

/-- `JSON.stringify`, as a character list (compact form: no whitespace,
the form the built-in emits with no `space` argument). -/
def stringifyChars : JsVal → List Char
  | .null => 'n' :: 'u' :: 'l' :: ['l']
  | .bool true => 't' :: 'r' :: 'u' :: ['e']
  | .bool false => 'f' :: 'a' :: 'l' :: 's' :: ['e']
  | .num n => intDecChars n
  | .str s => quoteString s
  | .arr [] => ['[', ']']
  | .arr (x :: xs) => '[' :: stringifyList x xs ++ [']']
  | .obj [] => ['\x7b', '\x7d']
  | .obj (f :: fs) => '\x7b' :: stringifyFields f fs ++ ['\x7d']
termination_by v => sizeOf v

/-- Comma-separated rendering of a non-empty array body. -/
def stringifyList : JsVal → List JsVal → List Char
  | x, [] => stringifyChars x
  | x, y :: ys => stringifyChars x ++ ',' :: stringifyList y ys
termination_by x xs => sizeOf x + sizeOf xs

/-- Comma-separated rendering of a non-empty object body. -/
def stringifyFields : String × JsVal → List (String × JsVal) → List Char
  | (k, v), [] => quoteString k ++ ':' :: stringifyChars v
  | (k, v), f :: fs => quoteString k ++ ':' :: stringifyChars v ++ ',' :: stringifyFields f fs
termination_by f fs => sizeOf f + sizeOf fs

end

/-- `JSON.stringify` as a string. -/
def JSONstringify (v : JsVal) : String := String.mk (stringifyChars v)

/-- Is `c` a decimal digit? -/
def isDigitChar (c : Char) : Bool := '0' ≤ c && c ≤ '9'

/-- Greedy digit run of a JSON number, big-endian accumulator. -/
def parseDigits : List Char → Nat → Nat × List Char
  | [], acc => (acc, [])
  | c :: rest, acc =>
    if isDigitChar c then parseDigits rest (acc * 10 + (c.toNat - 48))
    else (acc, c :: rest)

/-- `JSON.parse` string-literal body (after the opening quote): the decoded
characters and the input remaining after the closing quote. -/
def parseStringBody : List Char → Option (List Char × List Char)
  | [] => none
  | c :: rest =>
    if c = '"' then some ([], rest)
    else if c = '\\' then
      match rest with
      | [] => none
      | e :: r =>
        if e = '"' then (parseStringBody r).map (fun p => ('"' :: p.1, p.2))
        else if e = '\\' then (parseStringBody r).map (fun p => ('\\' :: p.1, p.2))
        else if e = '/' then (parseStringBody r).map (fun p => ('/' :: p.1, p.2))
        else if e = 'b' then (parseStringBody r).map (fun p => ('\x08' :: p.1, p.2))
        else if e = 'f' then (parseStringBody r).map (fun p => ('\x0c' :: p.1, p.2))
        else if e = 'n' then (parseStringBody r).map (fun p => ('\n' :: p.1, p.2))
        else if e = 'r' then (parseStringBody r).map (fun p => ('\r' :: p.1, p.2))
        else if e = 't' then (parseStringBody r).map (fun p => ('\t' :: p.1, p.2))
        else if e = 'u' then
          match r with
          | h1 :: h2 :: h3 :: h4 :: r2 =>
            match hexVal? h1, hexVal? h2, hexVal? h3, hexVal? h4 with
            | some a, some b, some c2, some d =>
              (parseStringBody r2).map
                (fun p => (Char.ofNat (a * 4096 + b * 256 + c2 * 16 + d) :: p.1, p.2))
            | _, _, _, _ => none
          | _ => none
        else none
    else (parseStringBody rest).map (fun p => (c :: p.1, p.2))

mutual

/-- `JSON.parse` of one value, fuel-indexed (the fuel only bounds nesting;
`JSONparse` supplies enough for any input).  Whitespace handling is omitted:
`JSON.stringify` emits none. -/
def parseVal : Nat → List Char → Option (JsVal × List Char)
  | 0, _ => none
  | fuel + 1, cs =>
    match cs with
    | [] => none
    | c :: rest =>
      if c = 'n' then
        match rest with
        | 'u' :: 'l' :: 'l' :: r => some (.null, r)
        | _ => none
      else if c = 't' then
        match rest with
        | 'r' :: 'u' :: 'e' :: r => some (.bool true, r)
        | _ => none
      else if c = 'f' then
        match rest with
        | 'a' :: 'l' :: 's' :: 'e' :: r => some (.bool false, r)
        | _ => none
      else if c = '"' then
        (parseStringBody rest).map (fun p => (.str (String.mk p.1), p.2))
      else if c = '[' then parseElems fuel rest
      else if c = '\x7b' then parseMembers fuel rest
      else if c = '-' then
        match rest with
        | d :: r =>
          if isDigitChar d then
            let (n, r2) := parseDigits r (d.toNat - 48)
            some (.num (-(n : Int)), r2)
          else none
        | [] => none
      else if isDigitChar c then
        let (n, r2) := parseDigits rest (c.toNat - 48)
        some (.num (n : Int), r2)
      else none

/-- Array body after `[`: empty on an immediate `]`, else one or more
elements. -/
def parseElems : Nat → List Char → Option (JsVal × List Char)
  | 0, _ => none
  | fuel + 1, cs =>
    match cs with
    | [] => none
    | c :: rest =>
      if c = ']' then some (.arr [], rest)
      else (parseElemsNE fuel (c :: rest)).map (fun p => (.arr p.1, p.2))

/-- One or more comma-separated array elements, consuming the closing
`]`. -/
def parseElemsNE : Nat → List Char → Option (List JsVal × List Char)
  | 0, _ => none
  | fuel + 1, cs =>
    match parseVal fuel cs with
    | some (v, ',' :: r) => (parseElemsNE fuel r).map (fun p => (v :: p.1, p.2))
    | some (v, ']' :: r) => some ([v], r)
    | _ => none

/-- Object body after the opening brace: empty on an immediate closing
brace, else one or more members. -/
def parseMembers : Nat → List Char → Option (JsVal × List Char)
  | 0, _ => none
  | fuel + 1, cs =>
    match cs with
    | [] => none
    | c :: rest =>
      if c = '\x7d' then some (.obj [], rest)
      else (parseMembersNE fuel (c :: rest)).map (fun p => (.obj p.1, p.2))

/-- One or more `"key":value` members, consuming the closing brace. -/
def parseMembersNE : Nat → List Char → Option (List (String × JsVal) × List Char)
  | 0, _ => none
  | fuel + 1, cs =>
    match cs with
    | '"' :: r1 =>
      match parseStringBody r1 with
      | some (k, ':' :: r2) =>
        match parseVal fuel r2 with
        | some (v, ',' :: r3) =>
          (parseMembersNE fuel r3).map (fun p => ((String.mk k, v) :: p.1, p.2))
        | some (v, '\x7d' :: r3) => some ([(String.mk k, v)], r3)
        | _ => none
      | _ => none
    | _ => none

end

/-- `JSON.parse`: parse the whole string as one value.  The fuel bounds
only the bracket nesting depth, which `2 * length + 1` always covers. -/
def JSONparse (s : String) : Option JsVal :=
  match parseVal (2 * s.data.length + 1) s.data with
  | some (v, []) => some v
  | _ => none

mutual

/-- Fuel needed by `parseVal` to read a value back (an analysis measure for
the parser, not part of the modelled code). -/
def jsize : JsVal → Nat
  | .arr [] => 2
  | .arr (x :: xs) => jsizeList x xs + 3
  | .obj [] => 2
  | .obj (f :: fs) => jsizeFields f fs + 3
  | _ => 1
termination_by v => sizeOf v

/-- Fuel needed by `parseElemsNE` for a non-empty array body. -/
def jsizeList : JsVal → List JsVal → Nat
  | x, [] => jsize x
  | x, y :: ys => jsize x + 1 + jsizeList y ys
termination_by x xs => sizeOf x + sizeOf xs

/-- Fuel needed by `parseMembersNE` for a non-empty object body. -/
def jsizeFields : String × JsVal → List (String × JsVal) → Nat
  | (_, v), [] => jsize v
  | (_, v), f :: fs => jsize v + 1 + jsizeFields f fs
termination_by f fs => sizeOf f + sizeOf fs

end

/-- Does the tail after a printed value not start with a digit?  (Only a
digit could extend the greedy number parse.) -/
def delimOk : List Char → Bool
  | [] => true
  | c :: _ => !(isDigitChar c)

/- ## The `Participant` class of src/participants-id.ts

The construction-time configuration.  `pfx` is the storage-key namespace
(the constructor parameter the source spells with the storage-key
namespace word, default `"participants_id"`); `validate?` is the optional
`browser_id_validation_func`.  The `debug` flag only controls logging and
has no observable effect, so it is not modelled. -/
structure Config where
  app_name : String
  pfx : String
  validate? : Option (String → Bool)

/-- The key `` `${this.prefix}.browser_id` ``. -/
def bidKey (cfg : Config) : String := cfg.pfx ++ ".browser_id"

/-- The key `` `${this.prefix}.created_at` ``. -/
def createdKey (cfg : Config) : String := cfg.pfx ++ ".created_at"

/-- The key `` `${this.prefix}.updated_at` ``. -/
def updatedKey (cfg : Config) : String := cfg.pfx ++ ".updated_at"

/-- The attribute key `` `${this.prefix}.${this.app_name}.${field}` ``. -/
def attrKey (cfg : Config) (field : String) : String :=
  cfg.pfx ++ "." ++ cfg.app_name ++ "." ++ field

/-- A `localStorage.setItem` call that may throw (quota, permissions):
`ok k` says whether writing key `k` succeeds.  `none` models a thrown
exception; the store is then unchanged. -/
def setItemF (ok : String → Bool) (st : Store) (k v : String) : Option Store :=
  if ok k then some (setItem st k v) else none

/-- The save step of `_generate_browser_id` (the `try` block around the
`setItem` calls): write the identifier, then write `updated_at` if
`created_at` is (truthily) present, else write `created_at`.  A thrown
write is caught and yields `null`; writes already performed persist.
With `this.storage === null` nothing is written but the fresh identifier
is still returned. -/
def saveBrowserId (cfg : Config) (ok : String → Bool) (storage : Option Store)
    (newId ts : String) : Option String × Option Store :=
  match storage with
  | none => (some newId, none)
  | some st =>
    match setItemF ok st (bidKey cfg) newId with
    | none => (none, some st)
    | some st1 =>
      if truthy (getItem st1 (createdKey cfg)) then
        match setItemF ok st1 (updatedKey cfg) ts with
        | none => (none, some st1)
        | some st2 => (some newId, some st2)
      else
        match setItemF ok st1 (createdKey cfg) ts with
        | none => (none, some st1)
        | some st2 => (some newId, some st2)

/-- `MAX_RETRY_VALIDATION`: the validation retry bound. -/
def MAX_RETRY_VALIDATION : Nat := 10

/-- The retry loop of `_generate_browser_id`, from attempt index `i` with
`fuel` iterations left.  `gen j` is the result of the `(j+1)`-th
`generate_uuidv7()` call and `ts` the `new Date().toISOString()` timestamp.
Returns the JS return value (`none` = `null`), the storage after the call,
and the number of generation attempts (= validator consultations when a
validator is configured) made. -/
def genLoop (cfg : Config) (ok : String → Bool) (gen : Nat → String) (ts : String)
    (storage : Option Store) : Nat → Nat → Option String × Option Store × Nat
  | _, 0 => (none, storage, 0)
  | i, fuel + 1 =>
    let newId := gen i
    let isValid :=
      match cfg.validate? with
      | none => true
      | some f => f newId
    if isValid then
      let (r, st') := saveBrowserId cfg ok storage newId ts
      (r, st', 1)
    else
      let (r, st', n) := genLoop cfg ok gen ts storage (i + 1) fuel
      (r, st', n + 1)

/-- `Participant._generate_browser_id`. -/
def generate_browser_id (cfg : Config) (ok : String → Bool) (gen : Nat → String)
    (ts : String) (storage : Option Store) : Option String × Option Store × Nat :=
  genLoop cfg ok gen ts storage 0 MAX_RETRY_VALIDATION

/-- The `browser_id` getter: `this.storage?.getItem(...)`; a truthy stored
value is returned as is, otherwise `_generate_browser_id()` runs. -/
def browser_id (cfg : Config) (ok : String → Bool) (gen : Nat → String) (ts : String)
    (storage : Option Store) : Option String × Option Store × Nat :=
  let id := storage.bind (fun st => getItem st (bidKey cfg))
  if truthy id then (id, storage, 0)
  else generate_browser_id cfg ok gen ts storage

/-- The `created_at` getter: `null` without storage, else a plain read. -/
def created_at (cfg : Config) (storage : Option Store) : Option String :=
  match storage with
  | none => none
  | some st => getItem st (createdKey cfg)

/-- The `updated_at` getter. -/
def updated_at (cfg : Config) (storage : Option Store) : Option String :=
  match storage with
  | none => none
  | some st => getItem st (updatedKey cfg)

/-- `browser_id_exists()`: `getItem(...) !== null` (false without
storage). -/
def browser_id_exists (cfg : Config) (storage : Option Store) : Bool :=
  match storage with
  | none => false
  | some st => (getItem st (bidKey cfg)).isSome

/-- `delete_browser_id()`: removes the identifier and both timestamp keys
(no-op without storage). -/
def delete_browser_id (cfg : Config) (storage : Option Store) : Option Store :=
  match storage with
  | none => none
  | some st =>
    some (removeItem (removeItem (removeItem st (bidKey cfg)) (createdKey cfg))
      (updatedKey cfg))

/-- What `get_attribute` hands back: a parsed JSON value, or the raw stored
string when `JSON.parse` throws. -/
inductive AttrOut where
  | json (v : JsVal) : AttrOut
  | raw (s : String) : AttrOut

/-- `set_attribute(field, value)`: `JSON.stringify` then `setItem` (no-op
without storage; the stringify of a `JsVal` never throws). -/
def set_attribute (cfg : Config) (storage : Option Store) (field : String)
    (v : JsVal) : Option Store :=
  match storage with
  | none => none
  | some st => some (setItem st (attrKey cfg field) (JSONstringify v))

/-- `get_attribute(field, defaultValue)`: the default without storage or
when the stored value is falsy (absent or empty); otherwise `JSON.parse`,
falling back to the raw string when parsing throws. -/
def get_attribute (cfg : Config) (storage : Option Store) (field : String)
    (dflt : AttrOut) : AttrOut :=
  match storage with
  | none => dflt
  | some st =>
    match getItem st (attrKey cfg field) with
    | none => dflt
    | some s =>
      if s = "" then dflt
      else
        match JSONparse s with
        | some v => .json v
        | none => .raw s

/-- `attributes_exists(field)`. -/
def attributes_exists (cfg : Config) (storage : Option Store) (field : String) : Bool :=
  match storage with
  | none => false
  | some st => (getItem st (attrKey cfg field)).isSome

/-- `delete_attribute(field)`. -/
def delete_attribute (cfg : Config) (storage : Option Store) (field : String) :
    Option Store :=
  match storage with
  | none => none
  | some st => some (removeItem st (attrKey cfg field))

/-- The `browser_id` getter of the older `Participant` variant
(src/index.ts, default namespace `"participant_id"`): with no storage it
returns `null` at once (`if (!this.storage) return null`), and
`_generate_browser_id` there also starts with that guard; with storage
present its behaviour coincides with the newer variant under an
always-succeeding write oracle. -/
def browser_id_v1 (cfg : Config) (gen : Nat → String) (ts : String)
    (storage : Option Store) : Option String × Option Store × Nat :=
  match storage with
  | none => (none, none, 0)
  | some st => browser_id cfg (fun _ => true) gen ts (some st)

/- ## The Flutter/Dart `Participant` (lib/participants_id.dart)

`SharedPreferences` stores typed values.  Doubles are omitted from the
model (floating point); the remaining slot types the library uses are
covered.  Write methods return a success `Bool`; the per-key oracle `ok`
models a backing-store failure.  A Dart `throw` is modelled as `none` in
the result; writes already committed persist. -/

/-- A typed `SharedPreferences` slot. -/
inductive PrefVal where
  | s (v : String) : PrefVal
  | i (v : Int) : PrefVal
  | b (v : Bool) : PrefVal
  | sl (v : List String) : PrefVal
deriving DecidableEq

/-- The `SharedPreferences` instance. -/
abbrev Prefs := List (String × PrefVal)

/-- `prefs.get(key)` (the untyped read). -/
def prefsGet : Prefs → String → Option PrefVal
  | [], _ => none
  | (k', v) :: rest, k => if k' = k then some v else prefsGet rest k

/-- `prefs.getString(key)`: `null` when absent or not a string slot. -/
def prefsGetString (p : Prefs) (k : String) : Option String :=
  match prefsGet p k with
  | some (.s v) => some v
  | _ => none

/-- `prefs.containsKey(key)`. -/
def prefsContainsKey (p : Prefs) (k : String) : Bool :=
  (prefsGet p k).isSome

/-- Replace or append a binding. -/
def prefsPut : Prefs → String → PrefVal → Prefs
  | [], k, v => [(k, v)]
  | (k', v') :: rest, k, v =>
    if k' = k then (k, v) :: rest else (k', v') :: prefsPut rest k v

/-- A typed `prefs.set…(key, value)` call: returns its success flag and the
resulting store (unchanged on failure). -/
def prefsSetF (ok : String → Bool) (p : Prefs) (k : String) (v : PrefVal) :
    Bool × Prefs :=
  if ok k then (true, prefsPut p k v) else (false, p)

/-- Drop every binding of a key. -/
def prefsDel : Prefs → String → Prefs
  | [], _ => []
  | (k', v) :: rest, k =>
    if k' = k then prefsDel rest k else (k', v) :: prefsDel rest k

/-- `prefs.remove(key)`: true when the key was removed or absent, false
only on a backing-store failure (then the store is unchanged). -/
def prefsRemoveF (ok : String → Bool) (p : Prefs) (k : String) : Bool × Prefs :=
  if ok k then (true, prefsDel p k) else (false, p)

/-- The Dart configuration: `appName`, the storage-key namespace `pfx`
(default `"participants_id"`), and the optional `browserIdValidationFunc`. -/
structure DConfig where
  appName : String
  pfx : String
  validate? : Option (String → Bool)

/-- `` '$prefix.browser_id' `` for the Dart class. -/
def dBidKey (cfg : DConfig) : String := cfg.pfx ++ ".browser_id"

/-- `` '$prefix.created_at' ``. -/
def dCreatedKey (cfg : DConfig) : String := cfg.pfx ++ ".created_at"

/-- `` '$prefix.updated_at' ``. -/
def dUpdatedKey (cfg : DConfig) : String := cfg.pfx ++ ".updated_at"

/-- `` '$prefix.$appName.$field' ``. -/
def dAttrKey (cfg : DConfig) (field : String) : String :=
  cfg.pfx ++ "." ++ cfg.appName ++ "." ++ field

/-- The retry loop of `_generateBrowserId`: generate `_uuid.v7()` (`gen i`),
validate, and on acceptance write the identifier (keeping its success
flag), write the timestamp (`created_at` if absent, else `updated_at`,
ignoring that write's flag), then throw if the identifier write failed.
Exhausting `MAX_RETRY_VALIDATION` throws.  `none` models the thrown
`Exception`; the store after the call is returned alongside. -/
def dartGenLoop (cfg : DConfig) (ok : String → Bool) (gen : Nat → String)
    (ts : String) : Nat → Nat → Prefs → Option String × Prefs
  | _, 0, prefs => (none, prefs)
  | i, fuel + 1, prefs =>
    let newId := gen i
    let isValid :=
      match cfg.validate? with
      | none => true
      | some f => f newId
    if isValid then
      let (success, p1) := prefsSetF ok prefs (dBidKey cfg) (.s newId)
      let p2 :=
        if prefsContainsKey p1 (dCreatedKey cfg) then
          (prefsSetF ok p1 (dUpdatedKey cfg) (.s ts)).2
        else
          (prefsSetF ok p1 (dCreatedKey cfg) (.s ts)).2
      if success then (some newId, p2) else (none, p2)
    else dartGenLoop cfg ok gen ts (i + 1) fuel prefs

/-- `Participant._generateBrowserId`. -/
def dartGenerateBrowserId (cfg : DConfig) (ok : String → Bool) (gen : Nat → String)
    (ts : String) (prefs : Prefs) : Option String × Prefs :=
  dartGenLoop cfg ok gen ts 0 MAX_RETRY_VALIDATION prefs

/-- `Participant.getBrowserId({generateIfNotExists})`: a stored identifier
is returned as is; otherwise generate when asked, else return `""` with no
side effect.  `none` models a thrown `Exception`. -/
def getBrowserId (cfg : DConfig) (ok : String → Bool) (gen : Nat → String)
    (ts : String) (prefs : Prefs) (generateIfNotExists : Bool) :
    Option String × Prefs :=
  match prefsGetString prefs (dBidKey cfg) with
  | some id => (some id, prefs)
  | none =>
    if generateIfNotExists then dartGenerateBrowserId cfg ok gen ts prefs
    else (some "", prefs)

/-- `Participant.deleteBrowserId()`: remove the identifier; only when that
reported success are the two timestamps removed; a failed identifier
removal throws. -/
def deleteBrowserId (cfg : DConfig) (ok : String → Bool) (prefs : Prefs) :
    Option Prefs × Prefs :=
  let (success, p1) := prefsRemoveF ok prefs (dBidKey cfg)
  if success then
    let p2 := (prefsRemoveF ok p1 (dCreatedKey cfg)).2
    let p3 := (prefsRemoveF ok p2 (dUpdatedKey cfg)).2
    (some p3, p3)
  else (none, p1)

/-- The dynamic values `setAttribute` accepts (doubles omitted, see the
section comment).  `djson` stands for any other structured value, which the
Dart code serializes with `jsonEncode`. -/
inductive DartVal where
  | dnull : DartVal
  | dstr (s : String) : DartVal
  | dint (n : Int) : DartVal
  | dbool (b : Bool) : DartVal
  | dstrList (l : List String) : DartVal
  | djson (v : JsVal) : DartVal

/-- `Participant.setAttribute(field, value)`: dispatch on the runtime type;
`null` removes the key; a structured value is stored as its `jsonEncode`
string; a failed write throws (`none`). -/
def setAttribute (cfg : DConfig) (ok : String → Bool) (prefs : Prefs)
    (field : String) (v : DartVal) : Option Prefs :=
  let key := dAttrKey cfg field
  let step : Bool × Prefs :=
    match v with
    | .dnull => prefsRemoveF ok prefs key
    | .dstr s => prefsSetF ok prefs key (.s s)
    | .dint n => prefsSetF ok prefs key (.i n)
    | .dbool b => prefsSetF ok prefs key (.b b)
    | .dstrList l => prefsSetF ok prefs key (.sl l)
    | .djson j => prefsSetF ok prefs key (.s (JSONstringify j))
  if step.1 then some step.2 else none

/-- `Participant.getAttribute(field, [defaultValue])`: the stored slot value
(`prefs.get`), or the default when the key is absent. -/
def getAttribute (cfg : DConfig) (prefs : Prefs) (field : String)
    (dflt : Option PrefVal) : Option PrefVal :=
  let key := dAttrKey cfg field
  if prefsContainsKey prefs key then
    match prefsGet prefs key with
    | some v => some v
    | none => dflt
  else dflt

/-- Does the slot `p` hold exactly (deep-equal) the Dart value `d` that was
passed to `setAttribute`?  A structured (`djson`) value is a Dart `Map` or
`List`, which no `SharedPreferences` slot the library reads back can equal;
in particular its `jsonEncode` string is not deep-equal to it. -/
def representsVal (d : DartVal) (p : PrefVal) : Bool :=
  match d, p with
  | .dstr a, .s b => a == b
  | .dint a, .i b => a == b
  | .dbool a, .b b => a == b
  | .dstrList a, .sl b => a == b
  | _, _ => false

/- ## Store lemmas -/

theorem getItem_setItem_self (st : Store) (k v : String) :
    getItem (setItem st k v) k = some v := by
  induction st with
  | nil => simp [setItem, getItem]
  | cons e rest ih =>
    obtain ⟨k', v'⟩ := e
    by_cases h : k' = k
    · simp [setItem, h, getItem]
    · simp [setItem, h, getItem, ih]

theorem getItem_setItem_ne (st : Store) (k k' v : String) (h : k ≠ k') :
    getItem (setItem st k v) k' = getItem st k' := by
  induction st with
  | nil => simp [setItem, getItem, h]
  | cons e rest ih =>
    obtain ⟨k₁, v₁⟩ := e
    by_cases h₁ : k₁ = k
    · simp [setItem, h₁, getItem, h]
    · simp [setItem, h₁, getItem, ih]

theorem getItem_removeItem_self (st : Store) (k : String) :
    getItem (removeItem st k) k = none := by
  induction st with
  | nil => simp [removeItem, getItem]
  | cons e rest ih =>
    obtain ⟨k₁, v₁⟩ := e
    by_cases h₁ : k₁ = k
    · simpa [removeItem, h₁] using ih
    · simpa [removeItem, h₁, getItem] using ih

theorem getItem_removeItem_ne (st : Store) (k k' : String) (h : k ≠ k') :
    getItem (removeItem st k) k' = getItem st k' := by
  induction st with
  | nil => simp [removeItem, getItem]
  | cons e rest ih =>
    obtain ⟨k₁, v₁⟩ := e
    by_cases h₁ : k₁ = k
    · subst h₁
      have hk : ¬(k₁ = k') := h
      simp [removeItem, getItem, hk, ih]
    · simp [removeItem, h₁, getItem, ih]

/- ## Storage-key distinctness -/

theorem append_ne_of_data_ne (p s₁ s₂ : String) (h : s₁.data ≠ s₂.data) :
    p ++ s₁ ≠ p ++ s₂ := by
  intro he
  have hd : p.data ++ s₁.data = p.data ++ s₂.data := by
    simpa [String.data_append] using congrArg String.data he
  exact h (List.append_cancel_left hd)

theorem bidKey_ne_createdKey (cfg : Config) : bidKey cfg ≠ createdKey cfg :=
  append_ne_of_data_ne _ _ _ (by decide)

theorem bidKey_ne_updatedKey (cfg : Config) : bidKey cfg ≠ updatedKey cfg :=
  append_ne_of_data_ne _ _ _ (by decide)

theorem createdKey_ne_updatedKey (cfg : Config) : createdKey cfg ≠ updatedKey cfg :=
  append_ne_of_data_ne _ _ _ (by decide)

/-- An attribute key has a dot between the application name and the field
(so at least two dots after the namespace), while each identity key appends
a suffix with a single leading dot and none after it; the two can never
collide. -/
theorem attrKey_ne_of_no_dot (cfg : Config) (field tail : String) (tl : List Char)
    (hdata : tail.data = '.' :: tl) (h : '.' ∉ tl) :
    attrKey cfg field ≠ cfg.pfx ++ tail := by
  intro he
  have hd : cfg.pfx.data ++ ('.' :: (cfg.app_name.data ++ '.' :: field.data)) =
      cfg.pfx.data ++ ('.' :: tl) := by
    have := congrArg String.data he
    simpa [attrKey, String.data_append, hdata] using this
  have h2 : cfg.app_name.data ++ '.' :: field.data = tl :=
    List.tail_eq_of_cons_eq (List.append_cancel_left hd)
  exact h (h2 ▸ List.mem_append_right _ (List.mem_cons_self _ _))

theorem attrKey_ne_bidKey (cfg : Config) (field : String) :
    attrKey cfg field ≠ bidKey cfg :=
  attrKey_ne_of_no_dot cfg field ".browser_id" "browser_id".data rfl (by decide)

theorem attrKey_ne_createdKey (cfg : Config) (field : String) :
    attrKey cfg field ≠ createdKey cfg :=
  attrKey_ne_of_no_dot cfg field ".created_at" "created_at".data rfl (by decide)

theorem attrKey_ne_updatedKey (cfg : Config) (field : String) :
    attrKey cfg field ≠ updatedKey cfg :=
  attrKey_ne_of_no_dot cfg field ".updated_at" "updated_at".data rfl (by decide)

/- ## Retry-loop lemmas -/

/-- The save step returns either `null` or the identifier it was given. -/
theorem saveBrowserId_fst (cfg : Config) (ok : String → Bool) (storage : Option Store)
    (nid ts : String) :
    (saveBrowserId cfg ok storage nid ts).1 = none ∨
    (saveBrowserId cfg ok storage nid ts).1 = some nid := by
  cases storage with
  | none => right; rfl
  | some st =>
    simp only [saveBrowserId]
    cases h1 : setItemF ok st (bidKey cfg) nid with
    | none => left; rfl
    | some st1 =>
      by_cases h2 : truthy (getItem st1 (createdKey cfg))
      · simp only [h2, if_true]
        cases setItemF ok st1 (updatedKey cfg) ts with
        | none => left; rfl
        | some st2 => right; rfl
      · simp only [h2, if_false]
        cases setItemF ok st1 (createdKey cfg) ts with
        | none => left; rfl
        | some st2 => right; rfl

/-- With no storage the loop never writes anything. -/
theorem genLoop_storage_none (cfg : Config) (ok : String → Bool) (gen : Nat → String)
    (ts : String) : ∀ fuel i, (genLoop cfg ok gen ts none i fuel).2.1 = none := by
  intro fuel
  induction fuel with
  | zero => intro i; rfl
  | succ fu ih =>
    intro i
    by_cases hval :
        (match cfg.validate? with | none => true | some f => f (gen i)) = true
    · simp [genLoop, hval, saveBrowserId]
    · simp only [genLoop, hval, if_false]
      exact ih (i + 1)

/-- The loop makes at most `fuel` generation attempts. -/
theorem genLoop_attempts_le (cfg : Config) (ok : String → Bool) (gen : Nat → String)
    (ts : String) (storage : Option Store) :
    ∀ fuel i, (genLoop cfg ok gen ts storage i fuel).2.2 ≤ fuel := by
  intro fuel
  induction fuel with
  | zero => intro i; exact Nat.le_refl 0
  | succ fu ih =>
    intro i
    by_cases hval :
        (match cfg.validate? with | none => true | some f => f (gen i)) = true
    · simp only [genLoop, hval, if_true]
      omega
    · have := ih (i + 1)
      simp only [genLoop]
      rw [if_neg hval]
      simpa using Nat.succ_le_succ this

/-- If the validator rejects the first `m` candidates (relative to start
index `i`) and accepts the next one, the loop stops there: the save step
runs on candidate `gen (i + m)` and exactly `m + 1` attempts are made. -/
theorem genLoop_accept (cfg : Config) (ok : String → Bool) (gen : Nat → String)
    (ts : String) (storage : Option Store) (f : String → Bool)
    (hv : cfg.validate? = some f) :
    ∀ m i fuel, m < fuel → (∀ j, j < m → f (gen (i + j)) = false) →
      f (gen (i + m)) = true →
      genLoop cfg ok gen ts storage i fuel =
        ((saveBrowserId cfg ok storage (gen (i + m)) ts).1,
         (saveBrowserId cfg ok storage (gen (i + m)) ts).2, m + 1) := by
  intro m
  induction m with
  | zero =>
    intro i fuel hlt _ hacc
    cases fuel with
    | zero => omega
    | succ fu =>
      have hacc' : f (gen i) = true := by simpa using hacc
      simp [genLoop, hv, hacc']
  | succ m ih =>
    intro i fuel hlt hrej hacc
    cases fuel with
    | zero => omega
    | succ fu =>
      have hrej0 : f (gen i) = false := by simpa using hrej 0 (Nat.succ_pos m)
      have hidx : i + 1 + m = i + (m + 1) := by omega
      have ih' := ih (i + 1) fu (by omega)
        (fun j hj => by
          have := hrej (j + 1) (by omega)
          simpa [show i + (j + 1) = i + 1 + j by omega] using this)
        (by simpa [hidx] using hacc)
      simp only [genLoop, hv, hrej0, Bool.false_eq_true, if_false]
      rw [ih']
      simp [hidx]

/-- If the validator rejects every candidate the loop can reach, the loop
returns `null`, leaves the storage untouched and makes `fuel` attempts. -/
theorem genLoop_reject_all (cfg : Config) (ok : String → Bool) (gen : Nat → String)
    (ts : String) (storage : Option Store) (f : String → Bool)
    (hv : cfg.validate? = some f) :
    ∀ fuel i, (∀ j, j < fuel → f (gen (i + j)) = false) →
      genLoop cfg ok gen ts storage i fuel = (none, storage, fuel) := by
  intro fuel
  induction fuel with
  | zero => intro i _; rfl
  | succ fu ih =>
    intro i hrej
    have hrej0 : f (gen i) = false := by simpa using hrej 0 (Nat.succ_pos fu)
    have ih' := ih (i + 1) (fun j hj => by
      have := hrej (j + 1) (by omega)
      simpa [show i + (j + 1) = i + 1 + j by omega] using this)
    simp only [genLoop, hv, hrej0, Bool.false_eq_true, if_false]
    rw [ih']

/-- With an always-succeeding write oracle the save step always returns
the identifier it was given. -/
theorem saveBrowserId_allOk_fst (cfg : Config) (storage : Option Store)
    (nid ts : String) :
    (saveBrowserId cfg (fun _ => true) storage nid ts).1 = some nid := by
  cases storage with
  | none => rfl
  | some st =>
    simp only [saveBrowserId, setItemF, if_true]
    by_cases h2 : truthy (getItem (setItem st (bidKey cfg) nid) (createdKey cfg))
    · simp [h2]
    · simp [h2]

/- ## Prefs lemmas (the Dart store) -/

theorem prefsGet_put_self (p : Prefs) (k : String) (v : PrefVal) :
    prefsGet (prefsPut p k v) k = some v := by
  induction p with
  | nil => simp [prefsPut, prefsGet]
  | cons e rest ih =>
    obtain ⟨k₁, v₁⟩ := e
    by_cases h : k₁ = k
    · simp [prefsPut, h, prefsGet]
    · simp [prefsPut, h, prefsGet, ih]

theorem prefsGet_put_ne (p : Prefs) (k k' : String) (v : PrefVal) (h : k ≠ k') :
    prefsGet (prefsPut p k v) k' = prefsGet p k' := by
  induction p with
  | nil => simp [prefsPut, prefsGet, h]
  | cons e rest ih =>
    obtain ⟨k₁, v₁⟩ := e
    by_cases h₁ : k₁ = k
    · simp [prefsPut, h₁, prefsGet, h]
    · simp [prefsPut, h₁, prefsGet, ih]

theorem prefsGet_del_self (p : Prefs) (k : String) :
    prefsGet (prefsDel p k) k = none := by
  induction p with
  | nil => simp [prefsDel, prefsGet]
  | cons e rest ih =>
    obtain ⟨k₁, v₁⟩ := e
    by_cases h₁ : k₁ = k
    · simpa [prefsDel, h₁] using ih
    · simpa [prefsDel, h₁, prefsGet] using ih

theorem prefsGet_del_ne (p : Prefs) (k k' : String) (h : k ≠ k') :
    prefsGet (prefsDel p k) k' = prefsGet p k' := by
  induction p with
  | nil => simp [prefsDel, prefsGet]
  | cons e rest ih =>
    obtain ⟨k₁, v₁⟩ := e
    by_cases h₁ : k₁ = k
    · subst h₁
      have hk : ¬(k₁ = k') := h
      simp [prefsDel, prefsGet, hk, ih]
    · simp [prefsDel, h₁, prefsGet, ih]

/-- The Dart identity keys are pairwise distinct. -/
theorem dBidKey_ne_dCreatedKey (cfg : DConfig) : dBidKey cfg ≠ dCreatedKey cfg :=
  append_ne_of_data_ne _ _ _ (by decide)

theorem dBidKey_ne_dUpdatedKey (cfg : DConfig) : dBidKey cfg ≠ dUpdatedKey cfg :=
  append_ne_of_data_ne _ _ _ (by decide)

theorem dCreatedKey_ne_dUpdatedKey (cfg : DConfig) : dCreatedKey cfg ≠ dUpdatedKey cfg :=
  append_ne_of_data_ne _ _ _ (by decide)

/-- A successful loop run returns an identifier the save step committed:
the resulting storage is the save step's output on that identifier. -/
theorem genLoop_success (cfg : Config) (ok : String → Bool) (gen : Nat → String)
    (ts : String) (storage : Option Store) :
    ∀ fuel i id, (genLoop cfg ok gen ts storage i fuel).1 = some id →
      (genLoop cfg ok gen ts storage i fuel).2.1 = (saveBrowserId cfg ok storage id ts).2 ∧
      (saveBrowserId cfg ok storage id ts).1 = some id := by
  intro fuel
  induction fuel with
  | zero => intro i id h; exact absurd h (by simp [genLoop])
  | succ fu ih =>
    intro i id h
    by_cases hval :
        (match cfg.validate? with | none => true | some f => f (gen i)) = true
    · simp only [genLoop, hval, if_true] at h ⊢
      rcases saveBrowserId_fst cfg ok storage (gen i) ts with hs | hs
      · rw [hs] at h; exact absurd h (by simp)
      · rw [hs] at h
        have hid : id = gen i := by
          injection h with h'
          exact h'.symm
        subst hid
        exact ⟨rfl, hs⟩
    · simp only [genLoop, hval, if_false] at h ⊢
      exact ih (i + 1) id h

/- ## Claim C1: the validator retry bound -/

/-- C1: For every validator, the retry controller generates candidates and
consults the validator at most `MAX_RETRY_VALIDATION = 10` times, returning
at first acceptance: if the validator rejects the first `k` candidates and
accepts the `(k+1)`-th with `k + 1 ≤ 10`, exactly `k + 1` generation
attempts occur and the `(k+1)`-th identifier is returned; if it rejects
every candidate, exactly `10` attempts occur and the failure (`null`, the
JS rendering of ValidationExhausted) is reported with the storage
untouched. -/
theorem C1_validator_retry_bound (cfg : Config) (gen : Nat → String) (ts : String)
    (storage : Option Store) (f : String → Bool) (hv : cfg.validate? = some f) :
    (∀ k, k < MAX_RETRY_VALIDATION → (∀ i, i < k → f (gen i) = false) →
      f (gen k) = true →
      (generate_browser_id cfg (fun _ => true) gen ts storage).1 = some (gen k) ∧
      (generate_browser_id cfg (fun _ => true) gen ts storage).2.2 = k + 1) ∧
    ((∀ i, i < MAX_RETRY_VALIDATION → f (gen i) = false) →
      generate_browser_id cfg (fun _ => true) gen ts storage =
        (none, storage, MAX_RETRY_VALIDATION)) ∧
    (∀ ok, (generate_browser_id cfg ok gen ts storage).2.2 ≤ MAX_RETRY_VALIDATION) := by
  refine ⟨?_, ?_, ?_⟩
  · intro k hk hrej hacc
    have h := genLoop_accept cfg (fun _ => true) gen ts storage f hv k 0
      MAX_RETRY_VALIDATION hk
      (fun j hj => by simpa using hrej j hj) (by simpa using hacc)
    rw [generate_browser_id, h]
    simp [saveBrowserId_allOk_fst]
  · intro hrej
    exact genLoop_reject_all cfg (fun _ => true) gen ts storage f hv
      MAX_RETRY_VALIDATION 0 (fun j hj => by simpa using hrej j hj)
  · intro ok
    exact genLoop_attempts_le cfg ok gen ts storage MAX_RETRY_VALIDATION 0

/-- Witness for C1: a validator that rejects exactly twice then accepts
leads to exactly 3 attempts and the third identifier; one that always
rejects leads to exactly 10 attempts and `null`. -/
theorem C1_witness :
    ((generate_browser_id ⟨"app", "p", some (fun s => s == "yes")⟩ (fun _ => true)
        (fun i => if i == 2 then "yes" else "no") "ts" (some [])).1 = some "yes" ∧
      (generate_browser_id ⟨"app", "p", some (fun s => s == "yes")⟩ (fun _ => true)
        (fun i => if i == 2 then "yes" else "no") "ts" (some [])).2.2 = 3) ∧
    generate_browser_id ⟨"app", "p", some (fun _ => false)⟩ (fun _ => true)
      (fun i => if i == 2 then "yes" else "no") "ts" (some []) =
      (none, some [], MAX_RETRY_VALIDATION) := by
  constructor
  · exact (C1_validator_retry_bound ⟨"app", "p", some (fun s => s == "yes")⟩
      (fun i => if i == 2 then "yes" else "no") "ts" (some [])
      (fun s => s == "yes") rfl).1 2 (by decide)
      (fun i hi => by interval_cases i <;> rfl) (by rfl)
  · exact (C1_validator_retry_bound ⟨"app", "p", some (fun _ => false)⟩
      (fun i => if i == 2 then "yes" else "no") "ts" (some [])
      (fun _ => false) rfl).2.1 (fun i _ => rfl)

/- ## Claim C3: reads of a stored identifier -/

/-- C3 (amended): for every state in which the identifier key holds a
*non-empty* value, reading `browser_id` returns that stored value
unchanged, makes no generation attempt (hence consults neither the
generator nor the validator) and leaves the storage untouched; hence two
successive reads return the same value.  (The empty string is excluded:
JS truthiness treats it as absent, see the counterexample.) -/
theorem C3_read_returns_stored (cfg : Config) (ok : String → Bool)
    (gen : Nat → String) (ts : String) (st : Store) (v : String)
    (h : getItem st (bidKey cfg) = some v) (hne : v ≠ "") :
    browser_id cfg ok gen ts (some st) = (some v, some st, 0) ∧
    (browser_id cfg ok gen ts ((browser_id cfg ok gen ts (some st)).2.1)).1 = some v := by
  have htr : truthy (some v) = true := by simp [truthy, hne]
  have h1 : browser_id cfg ok gen ts (some st) = (some v, some st, 0) := by
    simp [browser_id, h, htr]
  exact ⟨h1, by simp [h1]⟩

/-- Witness for C3 at a concrete non-empty stored identifier. -/
theorem C3_witness :
    browser_id ⟨"app", "p", none⟩ (fun _ => true) (fun _ => "fresh") "ts"
      (some [("p.browser_id", "stored-id")]) = (some "stored-id",
        some [("p.browser_id", "stored-id")], 0) :=
  (C3_read_returns_stored ⟨"app", "p", none⟩ (fun _ => true) (fun _ => "fresh") "ts"
    [("p.browser_id", "stored-id")] "stored-id" (by decide) (by decide)).1

/-- Counterexample to C3 as stated: when the identifier key holds the empty
string — a value — the getter does not return it: JS truthiness treats it
as absent, one generation attempt runs and a fresh identifier is
returned (and written). -/
theorem C3_counterexample :
    getItem [("p.browser_id", "")] (bidKey ⟨"app", "p", none⟩) = some "" ∧
    (browser_id ⟨"app", "p", none⟩ (fun _ => true) (fun _ => "fresh-id") "ts"
      (some [("p.browser_id", "")])).2.2 = 1 ∧
    (browser_id ⟨"app", "p", none⟩ (fun _ => true) (fun _ => "fresh-id") "ts"
      (some [("p.browser_id", "")])).1 ≠ some "" := by
  refine ⟨by decide, by decide, by decide⟩

/- ## Claim C4: first-write vs. regeneration timestamp semantics -/

/-- C4 (amended): on a successful generation with `created_at` absent,
`created_at` is written with the current timestamp and `updated_at` is left
absent; on a successful regeneration while `created_at` holds a *non-empty*
value, `updated_at` is written with the current timestamp and `created_at`
is left unchanged.  (Non-empty is required: the code tests `created_at`
with JS truthiness, see the counterexample.) -/
theorem C4_timestamp_semantics (cfg : Config) (gen : Nat → String) (ts : String)
    (st : Store) (id : String)
    (hsucc : (generate_browser_id cfg (fun _ => true) gen ts (some st)).1 = some id) :
    (getItem st (createdKey cfg) = none → getItem st (updatedKey cfg) = none →
      created_at cfg (generate_browser_id cfg (fun _ => true) gen ts (some st)).2.1 =
        some ts ∧
      updated_at cfg (generate_browser_id cfg (fun _ => true) gen ts (some st)).2.1 =
        none) ∧
    (∀ c, getItem st (createdKey cfg) = some c → c ≠ "" →
      updated_at cfg (generate_browser_id cfg (fun _ => true) gen ts (some st)).2.1 =
        some ts ∧
      created_at cfg (generate_browser_id cfg (fun _ => true) gen ts (some st)).2.1 =
        some c) := by
  obtain ⟨hst, -⟩ := genLoop_success cfg (fun _ => true) gen ts (some st)
    MAX_RETRY_VALIDATION 0 id hsucc
  have hc1 : getItem (setItem st (bidKey cfg) id) (createdKey cfg) =
      getItem st (createdKey cfg) :=
    getItem_setItem_ne st (bidKey cfg) (createdKey cfg) id (bidKey_ne_createdKey cfg)
  constructor
  · intro hcr hup
    have htr : truthy (getItem (setItem st (bidKey cfg) id) (createdKey cfg)) = false := by
      rw [hc1, hcr]; rfl
    have hsave : (saveBrowserId cfg (fun _ => true) (some st) id ts).2 =
        some (setItem (setItem st (bidKey cfg) id) (createdKey cfg) ts) := by
      simp [saveBrowserId, setItemF, htr]
    unfold generate_browser_id
    rw [hst, hsave]
    refine ⟨?_, ?_⟩
    · simp [created_at, getItem_setItem_self]
    · rw [updated_at]
      rw [getItem_setItem_ne _ _ _ _ (createdKey_ne_updatedKey cfg)]
      rw [getItem_setItem_ne _ _ _ _ (bidKey_ne_updatedKey cfg)]
      exact hup
  · intro c hcr hcne
    have htr : truthy (getItem (setItem st (bidKey cfg) id) (createdKey cfg)) = true := by
      rw [hc1, hcr]; simp [truthy, hcne]
    have hsave : (saveBrowserId cfg (fun _ => true) (some st) id ts).2 =
        some (setItem (setItem st (bidKey cfg) id) (updatedKey cfg) ts) := by
      simp [saveBrowserId, setItemF, htr]
    unfold generate_browser_id
    rw [hst, hsave]
    refine ⟨?_, ?_⟩
    · simp [updated_at, getItem_setItem_self]
    · rw [created_at]
      rw [getItem_setItem_ne _ _ _ _ (Ne.symm (createdKey_ne_updatedKey cfg))]
      rw [hc1, hcr]

/-- Witness for C4: concrete first generation and concrete regeneration. -/
theorem C4_witness :
    created_at ⟨"app", "p", none⟩
      (generate_browser_id ⟨"app", "p", none⟩ (fun _ => true) (fun _ => "id-1") "T1"
        (some [])).2.1 = some "T1" ∧
    updated_at ⟨"app", "p", none⟩
      (generate_browser_id ⟨"app", "p", none⟩ (fun _ => true) (fun _ => "id-1") "T1"
        (some [])).2.1 = none ∧
    updated_at ⟨"app", "p", none⟩
      (generate_browser_id ⟨"app", "p", none⟩ (fun _ => true) (fun _ => "id-2") "T2"
        (some [("p.browser_id", "id-1"), ("p.created_at", "T1")])).2.1 = some "T2" ∧
    created_at ⟨"app", "p", none⟩
      (generate_browser_id ⟨"app", "p", none⟩ (fun _ => true) (fun _ => "id-2") "T2"
        (some [("p.browser_id", "id-1"), ("p.created_at", "T1")])).2.1 = some "T1" := by
  have h1 := C4_timestamp_semantics ⟨"app", "p", none⟩ (fun _ => "id-1") "T1" [] "id-1"
    (by decide)
  have h2 := C4_timestamp_semantics ⟨"app", "p", none⟩ (fun _ => "id-2") "T2"
    [("p.browser_id", "id-1"), ("p.created_at", "T1")] "id-2" (by decide)
  obtain ⟨ha, hb⟩ := h1.1 (by decide) (by decide)
  obtain ⟨hc, hd⟩ := h2.2 "T1" (by decide) (by decide)
  exact ⟨ha, hb, hc, hd⟩

/-- Counterexample to C4 as stated: with `created_at` present but holding
the empty string, a successful regeneration does not write `updated_at`;
it overwrites `created_at` instead. -/
theorem C4_counterexample :
    getItem [("p.created_at", "")] (createdKey ⟨"app", "p", none⟩) = some "" ∧
    created_at ⟨"app", "p", none⟩
      (generate_browser_id ⟨"app", "p", none⟩ (fun _ => true) (fun _ => "id-x") "TS"
        (some [("p.created_at", "")])).2.1 = some "TS" ∧
    updated_at ⟨"app", "p", none⟩
      (generate_browser_id ⟨"app", "p", none⟩ (fun _ => true) (fun _ => "id-x") "TS"
        (some [("p.created_at", "")])).2.1 = none := by
  refine ⟨by decide, by decide, by decide⟩

/- ## Claim C5: delete removes the identifier and both timestamps -/

/-- C5: `delete_browser_id` / `deleteBrowserId` removes all three keys: the
existence check is then false, and reads of the identifier (with generation
disabled), `created_at` and `updated_at` all return absent (the Dart
generation-disabled read returns the empty string with no state change). -/
theorem C5_delete_removes_all :
    (∀ (cfg : Config) (st st' : Store), delete_browser_id cfg (some st) = some st' →
      getItem st' (bidKey cfg) = none ∧ created_at cfg (some st') = none ∧
      updated_at cfg (some st') = none ∧ browser_id_exists cfg (some st') = false) ∧
    (∀ (dcfg : DConfig) (prefs p' : Prefs) (ok2 : String → Bool) (gen : Nat → String)
      (ts : String),
      (deleteBrowserId dcfg (fun _ => true) prefs).1 = some p' →
      prefsGet p' (dBidKey dcfg) = none ∧ prefsGet p' (dCreatedKey dcfg) = none ∧
      prefsGet p' (dUpdatedKey dcfg) = none ∧
      getBrowserId dcfg ok2 gen ts p' false = (some "", p')) := by
  constructor
  · intro cfg st st' h
    have hst' : st' =
        removeItem (removeItem (removeItem st (bidKey cfg)) (createdKey cfg))
          (updatedKey cfg) := by
      simpa [delete_browser_id] using h.symm
    subst hst'
    have hbid : getItem (removeItem (removeItem (removeItem st (bidKey cfg))
        (createdKey cfg)) (updatedKey cfg)) (bidKey cfg) = none := by
      rw [getItem_removeItem_ne _ _ _ (Ne.symm (bidKey_ne_updatedKey cfg))]
      rw [getItem_removeItem_ne _ _ _ (Ne.symm (bidKey_ne_createdKey cfg))]
      exact getItem_removeItem_self st (bidKey cfg)
    refine ⟨hbid, ?_, ?_, ?_⟩
    · rw [created_at]
      rw [getItem_removeItem_ne _ _ _ (Ne.symm (createdKey_ne_updatedKey cfg))]
      exact getItem_removeItem_self _ (createdKey cfg)
    · rw [updated_at]
      exact getItem_removeItem_self _ (updatedKey cfg)
    · rw [browser_id_exists, hbid]; rfl
  · intro dcfg prefs p' ok2 gen ts h
    have hp' : p' =
        prefsDel (prefsDel (prefsDel prefs (dBidKey dcfg)) (dCreatedKey dcfg))
          (dUpdatedKey dcfg) := by
      simpa [deleteBrowserId, prefsRemoveF] using h.symm
    subst hp'
    have hbid : prefsGet (prefsDel (prefsDel (prefsDel prefs (dBidKey dcfg))
        (dCreatedKey dcfg)) (dUpdatedKey dcfg)) (dBidKey dcfg) = none := by
      rw [prefsGet_del_ne _ _ _ (Ne.symm (dBidKey_ne_dUpdatedKey dcfg))]
      rw [prefsGet_del_ne _ _ _ (Ne.symm (dBidKey_ne_dCreatedKey dcfg))]
      exact prefsGet_del_self prefs (dBidKey dcfg)
    refine ⟨hbid, ?_, ?_, ?_⟩
    · rw [prefsGet_del_ne _ _ _ (Ne.symm (dCreatedKey_ne_dUpdatedKey dcfg))]
      exact prefsGet_del_self _ (dCreatedKey dcfg)
    · exact prefsGet_del_self _ (dUpdatedKey dcfg)
    · simp [getBrowserId, prefsGetString, hbid]

/-- Witness for C5 at a concrete populated store. -/
theorem C5_witness :
    getItem (removeItem (removeItem (removeItem
        [("p.browser_id", "id"), ("p.created_at", "T"), ("p.updated_at", "U")]
        (bidKey ⟨"a", "p", none⟩)) (createdKey ⟨"a", "p", none⟩))
        (updatedKey ⟨"a", "p", none⟩)) (bidKey ⟨"a", "p", none⟩) = none ∧
    getBrowserId ⟨"a", "p", none⟩ (fun _ => true) (fun _ => "g") "ts"
      (prefsDel (prefsDel (prefsDel [(("p.browser_id" : String), PrefVal.s "id")]
        (dBidKey ⟨"a", "p", none⟩)) (dCreatedKey ⟨"a", "p", none⟩))
        (dUpdatedKey ⟨"a", "p", none⟩)) false =
      (some "", prefsDel (prefsDel (prefsDel [(("p.browser_id" : String), PrefVal.s "id")]
        (dBidKey ⟨"a", "p", none⟩)) (dCreatedKey ⟨"a", "p", none⟩))
        (dUpdatedKey ⟨"a", "p", none⟩)) := by
  constructor
  · exact ((C5_delete_removes_all).1 ⟨"a", "p", none⟩
      [("p.browser_id", "id"), ("p.created_at", "T"), ("p.updated_at", "U")] _ rfl).1
  · exact ((C5_delete_removes_all).2 ⟨"a", "p", none⟩
      [(("p.browser_id" : String), PrefVal.s "id")] _ (fun _ => true) (fun _ => "g")
      "ts" rfl).2.2.2

/- ## Claim C9: generation-disabled read of an absent identifier -/

/-- C9: when the identifier key is absent and `generateIfNotExists` is
false, `getBrowserId` returns the empty string and leaves the whole store
unchanged — nothing is written. -/
theorem C9_no_generate_no_side_effects (cfg : DConfig) (ok : String → Bool)
    (gen : Nat → String) (ts : String) (prefs : Prefs)
    (h : prefsGet prefs (dBidKey cfg) = none) :
    getBrowserId cfg ok gen ts prefs false = (some "", prefs) := by
  simp [getBrowserId, prefsGetString, h]

/-- Witness for C9 on a concrete store without the identifier key. -/
theorem C9_witness :
    getBrowserId ⟨"app", "p", none⟩ (fun _ => true) (fun _ => "g") "ts"
      [(("p.other" : String), PrefVal.s "x")] false =
      (some "", [(("p.other" : String), PrefVal.s "x")]) :=
  C9_no_generate_no_side_effects ⟨"app", "p", none⟩ (fun _ => true) (fun _ => "g") "ts"
    [(("p.other" : String), PrefVal.s "x")] (by decide)

/- ## Claim C10: attribute operations never touch the identity keys -/

/-- C10: the attribute key always differs from the three identity keys
(it contains an extra dot-separated segment), and `set_attribute` /
`delete_attribute` leave the identifier and both timestamps unchanged
(`get_attribute` performs no write at all: it returns no store). -/
theorem C10_attribute_isolated_from_identity (cfg : Config) (st : Store)
    (field : String) (v : JsVal) :
    (attrKey cfg field ≠ bidKey cfg ∧ attrKey cfg field ≠ createdKey cfg ∧
      attrKey cfg field ≠ updatedKey cfg) ∧
    (∀ st', set_attribute cfg (some st) field v = some st' →
      getItem st' (bidKey cfg) = getItem st (bidKey cfg) ∧
      getItem st' (createdKey cfg) = getItem st (createdKey cfg) ∧
      getItem st' (updatedKey cfg) = getItem st (updatedKey cfg)) ∧
    (∀ st', delete_attribute cfg (some st) field = some st' →
      getItem st' (bidKey cfg) = getItem st (bidKey cfg) ∧
      getItem st' (createdKey cfg) = getItem st (createdKey cfg) ∧
      getItem st' (updatedKey cfg) = getItem st (updatedKey cfg)) := by
  refine ⟨⟨attrKey_ne_bidKey cfg field, attrKey_ne_createdKey cfg field,
    attrKey_ne_updatedKey cfg field⟩, ?_, ?_⟩
  · intro st' h
    have hst' : st' = setItem st (attrKey cfg field) (JSONstringify v) := by
      simpa [set_attribute] using h.symm
    subst hst'
    exact ⟨getItem_setItem_ne _ _ _ _ (attrKey_ne_bidKey cfg field),
      getItem_setItem_ne _ _ _ _ (attrKey_ne_createdKey cfg field),
      getItem_setItem_ne _ _ _ _ (attrKey_ne_updatedKey cfg field)⟩
  · intro st' h
    have hst' : st' = removeItem st (attrKey cfg field) := by
      simpa [delete_attribute] using h.symm
    subst hst'
    exact ⟨getItem_removeItem_ne _ _ _ (attrKey_ne_bidKey cfg field),
      getItem_removeItem_ne _ _ _ (attrKey_ne_createdKey cfg field),
      getItem_removeItem_ne _ _ _ (attrKey_ne_updatedKey cfg field)⟩

/-- Witness for C10 at a concrete store, application name and field. -/
theorem C10_witness :
    getItem (setItem [("p.browser_id", "id")] (attrKey ⟨"exp1", "p", none⟩ "cond")
      (JSONstringify (JsVal.str "A"))) (bidKey ⟨"exp1", "p", none⟩) =
      getItem [("p.browser_id", "id")] (bidKey ⟨"exp1", "p", none⟩) :=
  ((C10_attribute_isolated_from_identity ⟨"exp1", "p", none⟩ [("p.browser_id", "id")]
    "cond" (JsVal.str "A")).2.1 _ rfl).1

/- ## Claim C6: persistence-write failures during generation -/

/-- C6 (amended): if a persistence write fails during identifier
generation, the operation reports failure (returns `null`); when the
identifier write itself fails nothing is committed, but when the timestamp
write fails after the identifier write succeeded, the identifier remains
newly written without the corresponding timestamp — the operation can
partially commit (see the counterexample). -/
theorem C6_write_failure_reporting (cfg : Config) (ok : String → Bool)
    (gen : Nat → String) (ts : String) (st : Store) (hv : cfg.validate? = none) :
    (ok (bidKey cfg) = false →
      generate_browser_id cfg ok gen ts (some st) = (none, some st, 1)) ∧
    (ok (bidKey cfg) = true → ok (createdKey cfg) = false →
      getItem st (createdKey cfg) = none →
      generate_browser_id cfg ok gen ts (some st) =
        (none, some (setItem st (bidKey cfg) (gen 0)), 1)) ∧
    (ok (bidKey cfg) = true → ok (updatedKey cfg) = false →
      ∀ c, getItem st (createdKey cfg) = some c → c ≠ "" →
      generate_browser_id cfg ok gen ts (some st) =
        (none, some (setItem st (bidKey cfg) (gen 0)), 1)) := by
  have h10 : MAX_RETRY_VALIDATION = 9 + 1 := rfl
  have hc1 : getItem (setItem st (bidKey cfg) (gen 0)) (createdKey cfg) =
      getItem st (createdKey cfg) :=
    getItem_setItem_ne st (bidKey cfg) (createdKey cfg) (gen 0) (bidKey_ne_createdKey cfg)
  refine ⟨?_, ?_, ?_⟩
  · intro hbid
    unfold generate_browser_id
    rw [h10]
    simp [genLoop, hv, saveBrowserId, setItemF, hbid]
  · intro hbid hcw hcr
    have htr : truthy (getItem (setItem st (bidKey cfg) (gen 0)) (createdKey cfg)) =
        false := by rw [hc1, hcr]; rfl
    unfold generate_browser_id
    rw [h10]
    simp [genLoop, hv, saveBrowserId, setItemF, hbid, htr, hcw]
  · intro hbid huw c hcr hcne
    have htr : truthy (getItem (setItem st (bidKey cfg) (gen 0)) (createdKey cfg)) =
        true := by rw [hc1, hcr]; simp [truthy, hcne]
    unfold generate_browser_id
    rw [h10]
    simp [genLoop, hv, saveBrowserId, setItemF, hbid, htr, huw]

/-- Witness for C6: a store that rejects every write makes the operation
report failure with nothing committed. -/
theorem C6_witness :
    generate_browser_id ⟨"app", "p", none⟩ (fun _ => false) (fun _ => "n") "T"
      (some []) = (none, some [], 1) :=
  (C6_write_failure_reporting ⟨"app", "p", none⟩ (fun _ => false) (fun _ => "n") "T"
    [] rfl).1 rfl

/-- Counterexample to C6 as stated: when only the `created_at` write fails
(after the identifier write succeeded), failure is reported but
`browser_id` is left newly written with both timestamps absent — a partial
commit. -/
theorem C6_counterexample :
    (generate_browser_id ⟨"app", "p", none⟩ (fun k => !(k == "p.created_at"))
      (fun _ => "new-id") "TS" (some [])).1 = none ∧
    browser_id_exists ⟨"app", "p", none⟩
      (generate_browser_id ⟨"app", "p", none⟩ (fun k => !(k == "p.created_at"))
        (fun _ => "new-id") "TS" (some [])).2.1 = true ∧
    created_at ⟨"app", "p", none⟩
      (generate_browser_id ⟨"app", "p", none⟩ (fun k => !(k == "p.created_at"))
        (fun _ => "new-id") "TS" (some [])).2.1 = none ∧
    updated_at ⟨"app", "p", none⟩
      (generate_browser_id ⟨"app", "p", none⟩ (fun k => !(k == "p.created_at"))
        (fun _ => "new-id") "TS" (some [])).2.1 = none := by
  refine ⟨by decide, by decide, by decide, by decide⟩

/- ## Claim C7: degradation when storage is unavailable -/

/-- C7 (amended): with the persistence medium unavailable (storage `null`)
no operation throws: timestamp reads return `null`, attribute reads return
the supplied default, existence checks return false, and writes and deletes
are no-ops.  The identifier read returns `null` in the older variant
(src/index.ts); in src/participants-id.ts it instead falls through to
generation and returns a fresh, unpersisted identifier (never writing
anything) — see the counterexample to the claim as stated. -/
theorem C7_storage_unavailable_degrades (cfg : Config) (ok : String → Bool)
    (gen : Nat → String) (ts : String) (field : String) (v : JsVal)
    (dflt : AttrOut) :
    created_at cfg none = none ∧ updated_at cfg none = none ∧
    browser_id_exists cfg none = false ∧ delete_browser_id cfg none = none ∧
    set_attribute cfg none field v = none ∧ get_attribute cfg none field dflt = dflt ∧
    attributes_exists cfg none field = false ∧ delete_attribute cfg none field = none ∧
    browser_id_v1 cfg gen ts none = (none, none, 0) ∧
    (browser_id cfg ok gen ts none).2.1 = none ∧
    (cfg.validate? = none → browser_id cfg ok gen ts none = (some (gen 0), none, 1)) := by
  have hb : browser_id cfg ok gen ts none = generate_browser_id cfg ok gen ts none := by
    simp [browser_id, truthy]
  refine ⟨rfl, rfl, rfl, rfl, rfl, rfl, rfl, rfl, rfl, ?_, ?_⟩
  · rw [hb]
    unfold generate_browser_id
    exact genLoop_storage_none cfg ok gen ts MAX_RETRY_VALIDATION 0
  · intro hv
    rw [hb]
    unfold generate_browser_id
    have h10 : MAX_RETRY_VALIDATION = 9 + 1 := rfl
    rw [h10]
    simp [genLoop, hv, saveBrowserId]

/-- Witness for C7, including the validator-free identifier read. -/
theorem C7_witness :
    browser_id ⟨"x", "q", none⟩ (fun _ => true) (fun _ => "gg") "t" none =
      (some "gg", none, 1) :=
  (C7_storage_unavailable_degrades ⟨"x", "q", none⟩ (fun _ => true) (fun _ => "gg")
    "t" "f" JsVal.null (AttrOut.raw "d")).2.2.2.2.2.2.2.2.2.2 rfl

/-- Counterexample to C7 as stated: in src/participants-id.ts an identifier
read with storage unavailable does not return `null`; it generates and
returns an ephemeral identifier. -/
theorem C7_counterexample :
    (browser_id ⟨"app", "p", none⟩ (fun _ => true) (fun _ => "eph-id") "ts" none).1 =
      some "eph-id" ∧
    (browser_id ⟨"app", "p", none⟩ (fun _ => true) (fun _ => "eph-id") "ts" none).1 ≠
      none := by
  refine ⟨by decide, by decide⟩

/- ## Hex lemmas for the generator (claim C2) -/

theorem hexChar_lower (n : Nat) (h : n < 16) : isHexLowerChar (hexChar n) = true := by
  interval_cases n <;> decide

theorem hexVal?_hexChar (n : Nat) (h : n < 16) : hexVal? (hexChar n) = some n := by
  interval_cases n <;> decide

theorem padHex_length : ∀ (w n : Nat), (padHex n w).length = w := by
  intro w
  induction w with
  | zero => intro n; rfl
  | succ w ih => intro n; simp [padHex, ih]

theorem padHex_mod : ∀ (w n : Nat), padHex (n % 16 ^ w) w = padHex n w := by
  intro w
  induction w with
  | zero => intro n; rfl
  | succ w ih =>
    intro n
    have hdvd : (16 : Nat) ∣ 16 ^ (w + 1) := dvd_pow_self 16 (Nat.succ_ne_zero w)
    have h1 : n % 16 ^ (w + 1) / 16 = n / 16 % 16 ^ w := by
      rw [pow_succ, Nat.mul_comm]
      exact Nat.mod_mul_right_div_self n 16 (16 ^ w)
    have h2 : n % 16 ^ (w + 1) % 16 = n % 16 := Nat.mod_mod_of_dvd n hdvd
    simp [padHex, h1, h2, ih]

theorem padHex_split : ∀ (w2 w1 n : Nat),
    padHex n (w1 + w2) = padHex (n / 16 ^ w2) w1 ++ padHex (n % 16 ^ w2) w2 := by
  intro w2
  induction w2 with
  | zero => intro w1 n; simp [padHex]
  | succ w2 ih =>
    intro w1 n
    have hdvd : (16 : Nat) ∣ 16 ^ (w2 + 1) := dvd_pow_self 16 (Nat.succ_ne_zero w2)
    have h1 : n % 16 ^ (w2 + 1) / 16 = n / 16 % 16 ^ w2 := by
      rw [pow_succ, Nat.mul_comm]
      exact Nat.mod_mul_right_div_self n 16 (16 ^ w2)
    have h2 : n % 16 ^ (w2 + 1) % 16 = n % 16 := Nat.mod_mod_of_dvd n hdvd
    have h3 : n / 16 / 16 ^ w2 = n / 16 ^ (w2 + 1) := by
      rw [Nat.div_div_eq_div_mul, pow_succ, Nat.mul_comm]
    have hL : w1 + (w2 + 1) = (w1 + w2) + 1 := by omega
    rw [hL]
    show padHex (n / 16) (w1 + w2) ++ [hexChar (n % 16)] = _
    rw [ih w1 (n / 16), h3]
    simp [padHex, h1, h2, List.append_assoc]

theorem foldl_padHex (w : Nat) : ∀ (n acc : Nat), n < 16 ^ w →
    List.foldl (fun acc c => acc * 16 + (hexVal? c).getD 0) acc (padHex n w) =
      acc * 16 ^ w + n := by
  induction w with
  | zero =>
    intro n acc h
    interval_cases n
    simp [padHex]
  | succ w ih =>
    intro n acc h
    have hdiv : n / 16 < 16 ^ w := by
      rw [Nat.div_lt_iff_lt_mul (by norm_num)]
      calc n < 16 ^ (w + 1) := h
        _ = 16 ^ w * 16 := by rw [pow_succ]
    rw [padHex, List.foldl_append, ih (n / 16) acc hdiv]
    simp only [List.foldl_cons, List.foldl_nil,
      hexVal?_hexChar (n % 16) (Nat.mod_lt n (by norm_num)), Option.getD_some]
    rw [pow_succ, ← Nat.mul_assoc]
    omega

theorem parseHex_padHex (w n : Nat) (h : n < 16 ^ w) : parseHex (padHex n w) = n := by
  have := foldl_padHex w n 0 h
  simpa [parseHex] using this

theorem mem_padHex_lower : ∀ (w n : Nat) (c : Char), c ∈ padHex n w →
    isHexLowerChar c = true := by
  intro w
  induction w with
  | zero => intro n c hc; simp [padHex] at hc
  | succ w ih =>
    intro n c hc
    rw [padHex, List.mem_append] at hc
    rcases hc with hc | hc
    · exact ih (n / 16) c hc
    · simp at hc
      rw [hc]
      exact hexChar_lower (n % 16) (Nat.mod_lt n (by norm_num))

theorem and255 (x : Nat) : x &&& 255 = x % 256 := by
  have h := Nat.and_pow_two_sub_one_eq_mod x 8
  norm_num at h
  exact h

theorem and15 (x : Nat) : x &&& 15 = x % 16 := by
  have h := Nat.and_pow_two_sub_one_eq_mod x 4
  norm_num at h
  exact h

theorem and63 (x : Nat) : x &&& 63 = x % 64 := by
  have h := Nat.and_pow_two_sub_one_eq_mod x 6
  norm_num at h
  exact h

theorem or112 (a : Nat) (h : a < 16) : a ||| 112 = a + 112 := by
  interval_cases a <;> decide

theorem or128 (a : Nat) (h : a < 64) : a ||| 128 = a + 128 := by
  interval_cases a <;> decide

/-- Any string assembled as `t[0..8]-t[8..12]-g3-g4-g5` from the 12-digit
hex timestamp `t = padHex now 12` and hex groups `g3` (4 chars, leading
`7`), `g4` (4 chars, leading variant char) and `g5` (12 chars) passes the
canonical-identifier check. -/
theorem checkCanonicalV7_segments (now : Nat) (t g3 g4 g5 : List Char)
    (ht : t = padHex now 12) (hnow : now < 16 ^ 12)
    (h3len : g3.length = 4) (h4len : g4.length = 4) (h5len : g5.length = 12)
    (h3hex : ∀ c ∈ g3, isHexLowerChar c = true)
    (h4hex : ∀ c ∈ g4, isHexLowerChar c = true)
    (h5hex : ∀ c ∈ g5, isHexLowerChar c = true)
    (h3head : g3.getD 0 ' ' = '7')
    (h4head : variantChars.contains (g4.getD 0 ' ') = true) :
    checkCanonicalV7 now (String.mk
      (t.take 8 ++ '-' :: t.drop 8 ++ '-' :: g3 ++ '-' :: g4 ++ '-' :: g5)) = true := by
  have hgd : ∀ (l : List Char) (n : Nat), l.getD n ' ' = (l.drop n).getD 0 ' ' := by
    intro l n
    rw [List.getD_eq_getElem?_getD, List.getD_eq_getElem?_getD, List.getElem?_drop]
    norm_num
  have htlen : t.length = 12 := by rw [ht]; exact padHex_length 12 now
  have ht8 : (t.take 8).length = 8 := by simp [List.length_take, htlen]
  have htd : (t.drop 8).length = 4 := by simp [List.length_drop, htlen]
  have hthex : ∀ c ∈ t, isHexLowerChar c = true := by
    intro c hc
    rw [ht] at hc
    exact mem_padHex_lower 12 now c hc
  set R3 : List Char := g4 ++ '-' :: g5 with hR3
  set R2 : List Char := g3 ++ '-' :: R3 with hR2
  set R1 : List Char := t.drop 8 ++ '-' :: R2 with hR1
  have hcs : t.take 8 ++ '-' :: t.drop 8 ++ '-' :: g3 ++ '-' :: g4 ++ '-' :: g5 =
      t.take 8 ++ '-' :: R1 := by rw [hR1, hR2, hR3]; simp
  have e_drop8 : (t.take 8 ++ '-' :: R1).drop 8 = '-' :: R1 := List.drop_left' ht8
  have e_drop9 : (t.take 8 ++ '-' :: R1).drop 9 = R1 := by
    have h : t.take 8 ++ '-' :: R1 = (t.take 8 ++ ['-']) ++ R1 := by simp
    rw [h]
    exact List.drop_left' (by simp [ht8])
  have e_drop13 : (t.take 8 ++ '-' :: R1).drop 13 = '-' :: R2 := by
    have h : t.take 8 ++ '-' :: R1 = ((t.take 8 ++ ['-']) ++ t.drop 8) ++ '-' :: R2 := by
      rw [hR1]; simp
    rw [h]
    exact List.drop_left' (by simp [ht8, htd])
  have e_drop14 : (t.take 8 ++ '-' :: R1).drop 14 = R2 := by
    have h : t.take 8 ++ '-' :: R1 =
        ((t.take 8 ++ ['-']) ++ (t.drop 8 ++ ['-'])) ++ R2 := by
      rw [hR1]; simp
    rw [h]
    exact List.drop_left' (by simp [ht8, htd])
  have e_drop18 : (t.take 8 ++ '-' :: R1).drop 18 = '-' :: R3 := by
    have h : t.take 8 ++ '-' :: R1 =
        ((t.take 8 ++ ['-']) ++ (t.drop 8 ++ ['-']) ++ g3) ++ '-' :: R3 := by
      rw [hR1, hR2]; simp
    rw [h]
    exact List.drop_left' (by simp [ht8, htd, h3len])
  have e_drop19 : (t.take 8 ++ '-' :: R1).drop 19 = R3 := by
    have h : t.take 8 ++ '-' :: R1 =
        ((t.take 8 ++ ['-']) ++ (t.drop 8 ++ ['-']) ++ (g3 ++ ['-'])) ++ R3 := by
      rw [hR1, hR2]; simp
    rw [h]
    exact List.drop_left' (by simp [ht8, htd, h3len])
  have e_drop23 : (t.take 8 ++ '-' :: R1).drop 23 = '-' :: g5 := by
    have h : t.take 8 ++ '-' :: R1 =
        ((t.take 8 ++ ['-']) ++ (t.drop 8 ++ ['-']) ++ (g3 ++ ['-']) ++ g4) ++
          '-' :: g5 := by
      rw [hR1, hR2, hR3]; simp
    rw [h]
    exact List.drop_left' (by simp [ht8, htd, h3len, h4len])
  have e_drop24 : (t.take 8 ++ '-' :: R1).drop 24 = g5 := by
    have h : t.take 8 ++ '-' :: R1 =
        ((t.take 8 ++ ['-']) ++ (t.drop 8 ++ ['-']) ++ (g3 ++ ['-']) ++
          (g4 ++ ['-'])) ++ g5 := by
      rw [hR1, hR2, hR3]; simp
    rw [h]
    exact List.drop_left' (by simp [ht8, htd, h3len, h4len])
  have e_take8 : (t.take 8 ++ '-' :: R1).take 8 = t.take 8 := List.take_left' ht8
  have e_seg2 : ((t.take 8 ++ '-' :: R1).drop 9).take 4 = t.drop 8 := by
    rw [e_drop9, hR1]
    exact List.take_left' htd
  have e_seg3 : ((t.take 8 ++ '-' :: R1).drop 14).take 4 = g3 := by
    rw [e_drop14, hR2]
    exact List.take_left' h3len
  have e_seg4 : ((t.take 8 ++ '-' :: R1).drop 19).take 4 = g4 := by
    rw [e_drop19, hR3]
    exact List.take_left' h4len
  have g8 : (t.take 8 ++ '-' :: R1).getD 8 ' ' = '-' := by
    rw [hgd _ 8, e_drop8]; rfl
  have g13 : (t.take 8 ++ '-' :: R1).getD 13 ' ' = '-' := by
    rw [hgd _ 13, e_drop13]; rfl
  have g18 : (t.take 8 ++ '-' :: R1).getD 18 ' ' = '-' := by
    rw [hgd _ 18, e_drop18]; rfl
  have g23 : (t.take 8 ++ '-' :: R1).getD 23 ' ' = '-' := by
    rw [hgd _ 23, e_drop23]; rfl
  have g14 : (t.take 8 ++ '-' :: R1).getD 14 ' ' = g3.getD 0 ' ' := by
    rw [hgd _ 14, e_drop14, hR2]
    exact List.getD_append _ _ _ _ (by omega)
  have g19 : (t.take 8 ++ '-' :: R1).getD 19 ' ' = g4.getD 0 ' ' := by
    rw [hgd _ 19, e_drop19, hR3]
    exact List.getD_append _ _ _ _ (by omega)
  have hlen : (t.take 8 ++ '-' :: R1).length = 36 := by
    simp [hR1, hR2, hR3, ht8, htd, h3len, h4len, h5len]
  have hts : parseHex ((t.take 8 ++ '-' :: R1).take 8 ++
      ((t.take 8 ++ '-' :: R1).drop 9).take 4) = now := by
    rw [e_take8, e_seg2, List.take_append_drop, ht]
    exact parseHex_padHex 12 now hnow
  simp only [checkCanonicalV7, hcs]
  rw [Bool.and_eq_true, Bool.and_eq_true, Bool.and_eq_true, Bool.and_eq_true,
    Bool.and_eq_true, Bool.and_eq_true, Bool.and_eq_true, Bool.and_eq_true]
  refine ⟨⟨⟨⟨⟨⟨⟨⟨?_, ?_⟩, ?_⟩, ?_⟩, ?_⟩, ?_⟩, ?_⟩, ?_⟩, ?_⟩
  · simp only [beq_iff_eq]
    exact hlen
  · simp only [beq_iff_eq]
    exact g8
  · simp only [beq_iff_eq]
    exact g13
  · simp only [beq_iff_eq]
    exact g18
  · simp only [beq_iff_eq]
    exact g23
  · rw [e_take8, e_seg2, e_seg3, e_seg4, e_drop24]
    simp only [List.all_append, Bool.and_eq_true, List.all_eq_true]
    exact ⟨⟨⟨⟨fun c hc => hthex c (List.mem_of_mem_take hc),
      fun c hc => hthex c (List.mem_of_mem_drop hc)⟩, h3hex⟩, h4hex⟩, h5hex⟩
  · simp only [beq_iff_eq]
    rw [g14]
    exact h3head
  · rw [g19]
    exact h4head
  · simp only [beq_iff_eq]
    exact hts

theorem byteHex_eq (b : Nat) : byteHex b = [hexChar (b / 16 % 16), hexChar (b % 16)] := by
  simp [byteHex, padHex]

theorem byteHex_length (b : Nat) : (byteHex b).length = 2 := padHex_length 2 b

theorem mem_byteHex_lower (b : Nat) (c : Char) (hc : c ∈ byteHex b) :
    isHexLowerChar c = true := mem_padHex_lower 2 b c hc

theorem variant_contains (v : Nat) (h8 : 8 ≤ v) (h12 : v < 12) :
    variantChars.contains (hexChar v) = true := by
  interval_cases v <;> decide

/-- The 12-digit hex timestamp is exactly the six timestamp bytes the
crypto path lays out. -/
theorem padHex12_bytes (now : Nat) :
    padHex now 12 =
      (byteHex (now / 0x10000000000 &&& 0xff) ++ byteHex (now / 0x100000000 &&& 0xff) ++
        byteHex (now / 0x1000000 &&& 0xff) ++ byteHex (now / 0x10000 &&& 0xff)) ++
      (byteHex (now / 0x100 &&& 0xff) ++ byteHex (now &&& 0xff)) := by
  have c0 : padHex now 12 = padHex (now / 256) 10 ++ byteHex (now &&& 255) := by
    have h := padHex_split 2 10 now
    norm_num at h
    rw [h, byteHex, and255]
  have c1 : padHex (now / 256) 10 =
      padHex (now / 65536) 8 ++ byteHex (now / 256 &&& 255) := by
    have h := padHex_split 2 8 (now / 256)
    norm_num at h
    rw [h, byteHex, and255, Nat.div_div_eq_div_mul]
  have c2 : padHex (now / 65536) 8 =
      padHex (now / 16777216) 6 ++ byteHex (now / 65536 &&& 255) := by
    have h := padHex_split 2 6 (now / 65536)
    norm_num at h
    rw [h, byteHex, and255, Nat.div_div_eq_div_mul]
  have c3 : padHex (now / 16777216) 6 =
      padHex (now / 4294967296) 4 ++ byteHex (now / 16777216 &&& 255) := by
    have h := padHex_split 2 4 (now / 16777216)
    norm_num at h
    rw [h, byteHex, and255, Nat.div_div_eq_div_mul]
  have c4 : padHex (now / 4294967296) 4 =
      padHex (now / 1099511627776) 2 ++ byteHex (now / 4294967296 &&& 255) := by
    have h := padHex_split 2 2 (now / 4294967296)
    norm_num at h
    rw [h, byteHex, and255, Nat.div_div_eq_div_mul]
  have c5 : padHex (now / 1099511627776) 2 = byteHex (now / 1099511627776 &&& 255) := by
    rw [byteHex, and255]
    have hm := padHex_mod 2 (now / 1099511627776)
    norm_num at hm
    exact hm.symm
  rw [c0, c1, c2, c3, c4, c5]
  simp [List.append_assoc]

/-- C2: every identifier produced by `generate_uuidv7` — by the Web-Crypto
path and by the `Math.random` fallback alike — is a lowercase 8-4-4-4-12
hyphenated hexadecimal string whose version nibble (13th hex digit) is `7`,
whose variant nibble (17th hex digit) is in `{8, 9, a, b}`, and whose first
48 bits are the real-clock millisecond timestamp `now`, big-endian. -/
theorem C2_canonical_identifiers :
    (∀ (now : Nat) (rnd : Fin 16 → Nat), now < 2 ^ 48 → (∀ i, rnd i < 256) →
      checkCanonicalV7 now (generate_uuidv7_crypto now rnd) = true) ∧
    (∀ now randA variantIdx randB1 randB2 : Nat, now < 2 ^ 48 → randA < 0xfff →
      variantIdx < 4 → randB1 < 0xfff → randB2 < 0xffffffffffff →
      checkCanonicalV7 now (generate_uuidv7_fallback now randA variantIdx
        randB1 randB2) = true) := by
  constructor
  · intro now rnd hnow hrnd
    have hnow' : now < 16 ^ 12 := by norm_num; omega
    have hT : (padHex now 12).take 8 =
        byteHex (now / 0x10000000000 &&& 0xff) ++ byteHex (now / 0x100000000 &&& 0xff) ++
          byteHex (now / 0x1000000 &&& 0xff) ++ byteHex (now / 0x10000 &&& 0xff) := by
      rw [padHex12_bytes]
      exact List.take_left' (by simp [byteHex_length])
    have hD : (padHex now 12).drop 8 =
        byteHex (now / 0x100 &&& 0xff) ++ byteHex (now &&& 0xff) := by
      rw [padHex12_bytes]
      exact List.drop_left' (by simp [byteHex_length])
    have hgoal : generate_uuidv7_crypto now rnd = String.mk
        ((padHex now 12).take 8 ++ '-' :: (padHex now 12).drop 8 ++
          '-' :: (byteHex ((rnd 6 &&& 0x0f) ||| 0x70) ++ byteHex (rnd 7)) ++
          '-' :: (byteHex ((rnd 8 &&& 0x3f) ||| 0x80) ++ byteHex (rnd 9)) ++
          '-' :: (byteHex (rnd 10) ++ byteHex (rnd 11) ++ byteHex (rnd 12) ++
            byteHex (rnd 13) ++ byteHex (rnd 14) ++ byteHex (rnd 15))) := by
      unfold generate_uuidv7_crypto
      apply congrArg
      rw [hT, hD]
    rw [hgoal]
    have hb6 : (rnd 6 &&& 0x0f) ||| 0x70 = rnd 6 % 16 + 112 := by
      rw [and15]
      exact or112 _ (Nat.mod_lt _ (by norm_num))
    have hb8 : (rnd 8 &&& 0x3f) ||| 0x80 = rnd 8 % 64 + 128 := by
      rw [and63]
      exact or128 _ (Nat.mod_lt _ (by norm_num))
    apply checkCanonicalV7_segments now (padHex now 12) _ _ _ rfl hnow'
    · simp [byteHex_length]
    · simp [byteHex_length]
    · simp [byteHex_length]
    · intro c hc
      rw [List.mem_append] at hc
      rcases hc with hc | hc
      · exact mem_byteHex_lower _ c hc
      · exact mem_byteHex_lower _ c hc
    · intro c hc
      rw [List.mem_append] at hc
      rcases hc with hc | hc
      · exact mem_byteHex_lower _ c hc
      · exact mem_byteHex_lower _ c hc
    · intro c hc
      simp only [List.mem_append] at hc
      rcases hc with ((((hc | hc) | hc) | hc) | hc) | hc <;>
        exact mem_byteHex_lower _ c hc
    · rw [byteHex_eq, hb6]
      have h7 : (rnd 6 % 16 + 112) / 16 % 16 = 7 := by omega
      simp only [List.cons_append, List.getD_cons_zero, h7]
      decide
    · rw [byteHex_eq, hb8]
      have hv8 : 8 ≤ (rnd 8 % 64 + 128) / 16 % 16 := by omega
      have hv12 : (rnd 8 % 64 + 128) / 16 % 16 < 12 := by omega
      simp only [List.cons_append, List.getD_cons_zero]
      exact variant_contains _ hv8 hv12
  · intro now randA variantIdx randB1 randB2 hnow hA hV hB1 hB2
    have hnow' : now < 16 ^ 12 := by norm_num; omega
    show checkCanonicalV7 now (String.mk
      ((padHex now 12).take 8 ++ '-' :: (padHex now 12).drop 8 ++
        '-' :: ('7' :: padHex randA 3) ++
        '-' :: (variantChars.getD variantIdx '8' :: padHex randB1 3) ++
        '-' :: padHex randB2 12)) = true
    apply checkCanonicalV7_segments now (padHex now 12) _ _ _ rfl hnow'
    · simp [padHex_length]
    · simp [padHex_length]
    · exact padHex_length 12 randB2
    · intro c hc
      rcases List.mem_cons.mp hc with hc | hc
      · rw [hc]; decide
      · exact mem_padHex_lower 3 randA c hc
    · intro c hc
      rcases List.mem_cons.mp hc with hc | hc
      · rw [hc]
        interval_cases variantIdx <;> decide
      · exact mem_padHex_lower 3 randB1 c hc
    · intro c hc
      exact mem_padHex_lower 12 randB2 c hc
    · rfl
    · show variantChars.contains (variantChars.getD variantIdx '8') = true
      interval_cases variantIdx <;> decide

/-- Witness for C2: both paths at concrete inputs. -/
theorem C2_witness :
    checkCanonicalV7 1700000000000
      (generate_uuidv7_crypto 1700000000000 (fun _ => 0x5a)) = true ∧
    checkCanonicalV7 1700000000000
      (generate_uuidv7_fallback 1700000000000 0xaaa 2 0xbbb 0xcccccccccccc) = true := by
  constructor
  · exact C2_canonical_identifiers.1 1700000000000 (fun _ => 0x5a) (by norm_num)
      (fun _ => by norm_num)
  · exact C2_canonical_identifiers.2 1700000000000 0xaaa 2 0xbbb 0xcccccccccccc
      (by norm_num) (by norm_num) (by norm_num) (by norm_num) (by norm_num)

/- ## JSON round-trip lemmas (claim C8) -/

theorem String_mk_data (s : String) : String.mk s.data = s := rfl

theorem jsize_pos : ∀ v : JsVal, 1 ≤ jsize v
  | .null => by simp [jsize]
  | .bool _ => by simp [jsize]
  | .num _ => by simp [jsize]
  | .str _ => by simp [jsize]
  | .arr [] => by simp [jsize]
  | .arr (_ :: _) => by simp [jsize]
  | .obj [] => by simp [jsize]
  | .obj (_ :: _) => by simp [jsize]

theorem jsize_le_jsizeList : ∀ (x : JsVal) (xs : List JsVal),
    jsize x ≤ jsizeList x xs := by
  intro x xs
  cases xs with
  | nil => simp [jsizeList]
  | cons y ys => simp [jsizeList]; omega

theorem jsize_le_jsizeFields : ∀ (k : String) (v : JsVal) (fs : List (String × JsVal)),
    jsize v ≤ jsizeFields (k, v) fs := by
  intro k v fs
  cases fs with
  | nil => simp [jsizeFields]
  | cons f fs' => simp [jsizeFields]; omega

theorem digitChar_isDigit (d : Nat) (h : d < 10) : isDigitChar (hexChar d) = true := by
  interval_cases d <;> decide

theorem digitChar_toNat (d : Nat) (h : d < 10) : (hexChar d).toNat - 48 = d := by
  interval_cases d <;> decide

theorem digit_ne (c : Char) (h : isDigitChar c = true) :
    c ≠ 'n' ∧ c ≠ 't' ∧ c ≠ 'f' ∧ c ≠ '"' ∧ c ≠ '[' ∧ c ≠ '\x7b' ∧ c ≠ '-' ∧
      c ≠ ']' ∧ c ≠ '\x7d' := by
  refine ⟨?_, ?_, ?_, ?_, ?_, ?_, ?_, ?_, ?_⟩ <;>
    (intro he; rw [he] at h; exact absurd h (by decide))

theorem natDecAux_unfold (m : Nat) (acc : List Char) :
    natDecAux m acc = if m < 10 then hexChar (m % 10) :: acc
      else natDecAux (m / 10) (hexChar (m % 10) :: acc) := by
  rw [natDecAux]

theorem natDecAux_append : ∀ (n : Nat) (acc : List Char),
    natDecAux n acc = natDecAux n [] ++ acc := by
  intro n
  induction n using Nat.strong_induction_on with
  | _ n ih =>
    intro acc
    by_cases h : n < 10
    · rw [natDecAux_unfold n acc, natDecAux_unfold n []]
      simp [h]
    · rw [natDecAux_unfold n acc, natDecAux_unfold n []]
      simp only [h, if_false]
      have hd : n / 10 < n := Nat.div_lt_self (by omega) (by omega)
      rw [ih (n / 10) hd (hexChar (n % 10) :: acc), ih (n / 10) hd [hexChar (n % 10)]]
      simp

theorem natDecChars_ne_nil (n : Nat) : natDecChars n ≠ [] := by
  rw [natDecChars, natDecAux_unfold]
  by_cases h : n < 10
  · simp [h]
  · simp only [h, if_false]
    rw [natDecAux_append]
    simp

theorem natDecChars_digits : ∀ (n : Nat) (c : Char), c ∈ natDecChars n →
    isDigitChar c = true := by
  intro n
  induction n using Nat.strong_induction_on with
  | _ n ih =>
    intro c hc
    rw [natDecChars, natDecAux_unfold] at hc
    by_cases h : n < 10
    · simp [h] at hc
      rw [hc]
      exact digitChar_isDigit (n % 10) (Nat.mod_lt n (by omega))
    · simp only [h, if_false] at hc
      rw [natDecAux_append] at hc
      rcases List.mem_append.mp hc with hc | hc
      · exact ih (n / 10) (Nat.div_lt_self (by omega) (by omega)) c (by
          rw [natDecChars]; exact hc)
      · simp at hc
        rw [hc]
        exact digitChar_isDigit (n % 10) (Nat.mod_lt n (by omega))

theorem parseDigits_stop (rest : List Char) (acc : Nat) (h : delimOk rest = true) :
    parseDigits rest acc = (acc, rest) := by
  cases rest with
  | nil => rfl
  | cons c ts =>
    have hc : isDigitChar c = false := by
      simpa [delimOk] using h
    simp [parseDigits, hc]

theorem parseDigits_natDec : ∀ (n : Nat) (acc : Nat) (rest : List Char),
    parseDigits (natDecChars n ++ rest) acc =
      parseDigits rest (acc * 10 ^ (natDecChars n).length + n) := by
  intro n
  induction n using Nat.strong_induction_on with
  | _ n ih =>
    intro acc rest
    by_cases h : n < 10
    · have hform : natDecChars n = [hexChar (n % 10)] := by
        rw [natDecChars, natDecAux_unfold]
        simp [h]
      rw [hform]
      simp only [List.cons_append, List.nil_append, parseDigits,
        digitChar_isDigit (n % 10) (Nat.mod_lt n (by omega)), if_true,
        digitChar_toNat (n % 10) (Nat.mod_lt n (by omega))]
      have : n % 10 = n := Nat.mod_eq_of_lt h
      simp [this]
    · have hform : natDecChars n = natDecChars (n / 10) ++ [hexChar (n % 10)] := by
        rw [natDecChars, natDecAux_unfold]
        simp only [h, if_false]
        rw [natDecAux_append]
        rfl
      have hd : n / 10 < n := Nat.div_lt_self (by omega) (by omega)
      rw [hform, List.append_assoc, ih (n / 10) hd acc]
      simp only [List.cons_append, List.nil_append, parseDigits,
        digitChar_isDigit (n % 10) (Nat.mod_lt n (by omega)), if_true,
        digitChar_toNat (n % 10) (Nat.mod_lt n (by omega))]
      congr 1
      rw [List.length_append, List.length_cons, List.length_nil]
      have hp : 10 ^ ((natDecChars (n / 10)).length + 1) =
          10 ^ (natDecChars (n / 10)).length * 10 := pow_succ 10 _
      rw [hp]
      generalize 10 ^ (natDecChars (n / 10)).length = P
      have := Nat.div_add_mod n 10
      ring_nf
      omega

theorem stringify_head : ∀ v : JsVal, ∃ c cs, stringifyChars v = c :: cs ∧
    c ≠ ']' ∧ c ≠ '\x7d' := by
  intro v
  cases v with
  | null => exact ⟨'n', _, by rw [stringifyChars], by decide, by decide⟩
  | bool b => cases b with
    | true => exact ⟨'t', _, by rw [stringifyChars], by decide, by decide⟩
    | false => exact ⟨'f', _, by rw [stringifyChars], by decide, by decide⟩
  | num n =>
    have hs : stringifyChars (JsVal.num n) = intDecChars n := by rw [stringifyChars]
    rw [hs, intDecChars]
    by_cases h : n < 0
    · exact ⟨'-', _, by rw [if_pos h], by decide, by decide⟩
    · rw [if_neg h]
      obtain ⟨d, ds, hds⟩ := List.exists_cons_of_ne_nil (natDecChars_ne_nil n.toNat)
      have hd : isDigitChar d = true :=
        natDecChars_digits n.toNat d (by rw [hds]; exact List.mem_cons_self _ _)
      obtain ⟨-, -, -, -, -, -, -, h8, h9⟩ := digit_ne d hd
      exact ⟨d, ds, hds, h8, h9⟩
  | str s =>
    exact ⟨'"', _, by rw [stringifyChars, quoteString]; rfl, by decide, by decide⟩
  | arr xs => cases xs with
    | nil => exact ⟨'[', _, by rw [stringifyChars], by decide, by decide⟩
    | cons x xs =>
      exact ⟨'[', _, by rw [stringifyChars]; rfl, by decide, by decide⟩
  | obj fs => cases fs with
    | nil => exact ⟨'\x7b', _, by rw [stringifyChars], by decide, by decide⟩
    | cons f fs =>
      exact ⟨'\x7b', _, by rw [stringifyChars]; rfl, by decide, by decide⟩

theorem stringifyList_head : ∀ (x : JsVal) (xs : List JsVal), ∃ c cs,
    stringifyList x xs = c :: cs ∧ c ≠ ']' ∧ c ≠ '\x7d' := by
  intro x xs
  obtain ⟨c, cs, hx, h1, h2⟩ := stringify_head x
  cases xs with
  | nil => exact ⟨c, cs, by rw [stringifyList, hx], h1, h2⟩
  | cons y ys =>
    exact ⟨c, cs ++ ',' :: stringifyList y ys,
      by rw [stringifyList, hx]; rfl, h1, h2⟩

theorem parseStringBody_quote : ∀ (cs rest : List Char),
    parseStringBody ((cs.map escapeChar).flatten ++ '"' :: rest) = some (cs, rest) := by
  intro cs
  induction cs with
  | nil =>
    intro rest
    show parseStringBody (([] : List (List Char)).flatten ++ '"' :: rest) = _
    rw [show (([] : List (List Char)).flatten ++ '"' :: rest) = '"' :: rest by simp]
    rw [parseStringBody.eq_def]
    simp
  | cons c cs ih =>
    intro rest
    have hexp : (((c :: cs).map escapeChar).flatten : List Char) ++ '"' :: rest =
        escapeChar c ++ ((cs.map escapeChar).flatten ++ '"' :: rest) := by
      simp
    rw [hexp, escapeChar]
    by_cases h1 : c = '"'
    · subst h1
      rw [if_pos rfl]
      show parseStringBody ('\\' :: '"' :: _) = _
      rw [parseStringBody.eq_def]
      simp [ih]
    · rw [if_neg h1]
      by_cases h2 : c = '\\'
      · subst h2
        rw [if_pos rfl]
        show parseStringBody ('\\' :: '\\' :: _) = _
        rw [parseStringBody.eq_def]
        simp [ih]
      · rw [if_neg h2]
        by_cases h3 : c = '\x08'
        · subst h3
          rw [if_pos rfl]
          show parseStringBody ('\\' :: 'b' :: _) = _
          rw [parseStringBody.eq_def]
          simp [ih]
        · rw [if_neg h3]
          by_cases h4 : c = '\x0c'
          · subst h4
            rw [if_pos rfl]
            show parseStringBody ('\\' :: 'f' :: _) = _
            rw [parseStringBody.eq_def]
            simp [ih]
          · rw [if_neg h4]
            by_cases h5 : c = '\n'
            · subst h5
              rw [if_pos rfl]
              show parseStringBody ('\\' :: 'n' :: _) = _
              rw [parseStringBody.eq_def]
              simp [ih]
            · rw [if_neg h5]
              by_cases h6 : c = '\r'
              · subst h6
                rw [if_pos rfl]
                show parseStringBody ('\\' :: 'r' :: _) = _
                rw [parseStringBody.eq_def]
                simp [ih]
              · rw [if_neg h6]
                by_cases h7 : c = '\t'
                · subst h7
                  rw [if_pos rfl]
                  show parseStringBody ('\\' :: 't' :: _) = _
                  rw [parseStringBody.eq_def]
                  simp [ih]
                · rw [if_neg h7]
                  by_cases h8 : c.toNat < 32
                  · rw [if_pos h8]
                    have ha : hexVal? (hexChar (c.toNat / 16)) = some (c.toNat / 16) :=
                      hexVal?_hexChar _ (by omega)
                    have hb : hexVal? (hexChar (c.toNat % 16)) = some (c.toNat % 16) :=
                      hexVal?_hexChar _ (Nat.mod_lt _ (by norm_num))
                    have hval : 0 * 4096 + 0 * 256 + c.toNat / 16 * 16 + c.toNat % 16 =
                        c.toNat := by omega
                    have h0 : hexVal? '0' = some 0 := by decide
                    show parseStringBody ('\\' :: 'u' :: '0' :: '0' :: _ :: _ :: _) = _
                    rw [parseStringBody.eq_def]
                    simp [h0, ha, hb, hval, ih]
                    have hval2 : c.toNat / 16 * 16 + c.toNat % 16 = c.toNat := by omega
                    rw [hval2, Char.ofNat_toNat]
                  · rw [if_neg h8]
                    show parseStringBody (c :: _) = _
                    rw [parseStringBody.eq_def]
                    simp [h1, h2, ih]

theorem delimOk_rbracket (r : List Char) : delimOk (']' :: r) = true := rfl

theorem delimOk_rbrace (r : List Char) : delimOk ('\x7d' :: r) = true := rfl

theorem delimOk_comma (r : List Char) : delimOk (',' :: r) = true := rfl

theorem parseVal_posnum (f : Nat) (d : Char) (tail : List Char) (a : Nat)
    (r2 : List Char) (h1 : d ≠ 'n') (h2 : d ≠ 't') (h3 : d ≠ 'f') (h4 : d ≠ '"')
    (h5 : d ≠ '[') (h6 : d ≠ '\x7b') (h7 : d ≠ '-') (hd : isDigitChar d = true)
    (hpd : parseDigits tail (d.toNat - 48) = (a, r2)) :
    parseVal (f + 1) (d :: tail) = some (.num (a : Int), r2) := by
  rw [parseVal.eq_def]
  simp [h1, h2, h3, h4, h5, h6, h7, hd, hpd]

theorem parseVal_negnum (f : Nat) (d : Char) (tail : List Char) (a : Nat)
    (r2 : List Char) (hd : isDigitChar d = true)
    (hpd : parseDigits tail (d.toNat - 48) = (a, r2)) :
    parseVal (f + 1) ('-' :: d :: tail) = some (.num (-(a : Int)), r2) := by
  rw [parseVal.eq_def]
  simp [hd, hpd]

theorem parseMembersNE_step (f : Nat) (k : String) (rest2 : List Char) :
    parseMembersNE (f + 1)
      ('"' :: ((k.data.map escapeChar).flatten ++ '"' :: ':' :: rest2)) =
    match parseVal f rest2 with
    | some (v, ',' :: r3) =>
      (parseMembersNE f r3).map (fun p => ((k, v) :: p.1, p.2))
    | some (v, '\x7d' :: r3) => some ([(k, v)], r3)
    | _ => none := by
  rw [parseMembersNE.eq_def]
  simp [parseStringBody_quote, String_mk_data]

/-- The parser reads back exactly what the printer wrote, given enough fuel
and a tail that cannot extend a number. -/
theorem parse_stringify_all : ∀ fuel : Nat,
    (∀ (v : JsVal) (rest : List Char), jsize v ≤ fuel → delimOk rest = true →
      parseVal fuel (stringifyChars v ++ rest) = some (v, rest)) ∧
    (∀ (x : JsVal) (xs : List JsVal) (rest : List Char), jsizeList x xs + 1 ≤ fuel →
      parseElemsNE fuel (stringifyList x xs ++ ']' :: rest) = some (x :: xs, rest)) ∧
    (∀ (kv : String × JsVal) (fs : List (String × JsVal)) (rest : List Char),
      jsizeFields kv fs + 1 ≤ fuel →
      parseMembersNE fuel (stringifyFields kv fs ++ '\x7d' :: rest) =
        some (kv :: fs, rest)) := by
  intro fuel
  induction fuel using Nat.strong_induction_on with
  | _ fuel ih =>
    refine ⟨?_, ?_, ?_⟩
    · intro v rest hsz hdel
      cases fuel with
      | zero => exact absurd hsz (by have := jsize_pos v; omega)
      | succ f =>
        cases v with
        | null =>
          rw [show stringifyChars JsVal.null ++ rest = 'n' :: 'u' :: 'l' :: 'l' :: rest
            from by rw [stringifyChars]; rfl]
          rfl
        | bool b =>
          cases b with
          | true =>
            rw [show stringifyChars (JsVal.bool true) ++ rest =
              't' :: 'r' :: 'u' :: 'e' :: rest from by rw [stringifyChars]; rfl]
            rfl
          | false =>
            rw [show stringifyChars (JsVal.bool false) ++ rest =
              'f' :: 'a' :: 'l' :: 's' :: 'e' :: rest from by rw [stringifyChars]; rfl]
            rfl
        | num n =>
          have hs : stringifyChars (JsVal.num n) = intDecChars n := by
            rw [stringifyChars]
          rw [hs, intDecChars]
          by_cases hn : n < 0
          · rw [if_pos hn]
            obtain ⟨d, ds, hds⟩ :=
              List.exists_cons_of_ne_nil (natDecChars_ne_nil n.natAbs)
            have hd : isDigitChar d = true :=
              natDecChars_digits n.natAbs d (by rw [hds]; exact List.mem_cons_self _ _)
            have hkey : parseDigits (ds ++ rest) (d.toNat - 48) = (n.natAbs, rest) := by
              have h1 := parseDigits_natDec n.natAbs 0 rest
              rw [hds] at h1
              simp only [List.cons_append, parseDigits, hd, if_true] at h1
              rw [parseDigits_stop rest _ hdel] at h1
              simpa using h1
            rw [show ('-' :: natDecChars n.natAbs) ++ rest =
              '-' :: (natDecChars n.natAbs ++ rest) from rfl]
            rw [hds]
            rw [show ((d :: ds) ++ rest : List Char) = d :: (ds ++ rest) from rfl]
            rw [parseVal_negnum f d (ds ++ rest) n.natAbs rest hd hkey]
            have hval : -((n.natAbs : Int)) = n := by omega
            rw [hval]
          · rw [if_neg hn]
            obtain ⟨d, ds, hds⟩ :=
              List.exists_cons_of_ne_nil (natDecChars_ne_nil n.toNat)
            have hd : isDigitChar d = true :=
              natDecChars_digits n.toNat d (by rw [hds]; exact List.mem_cons_self _ _)
            obtain ⟨hn1, hn2, hn3, hn4, hn5, hn6, hn7, -, -⟩ := digit_ne d hd
            have hkey : parseDigits (ds ++ rest) (d.toNat - 48) = (n.toNat, rest) := by
              have h1 := parseDigits_natDec n.toNat 0 rest
              rw [hds] at h1
              simp only [List.cons_append, parseDigits, hd, if_true] at h1
              rw [parseDigits_stop rest _ hdel] at h1
              simpa using h1
            rw [hds]
            rw [show ((d :: ds) ++ rest : List Char) = d :: (ds ++ rest) from rfl]
            rw [parseVal_posnum f d (ds ++ rest) n.toNat rest hn1 hn2 hn3 hn4 hn5 hn6
              hn7 hd hkey]
            have hval : ((n.toNat : Int)) = n := by omega
            rw [hval]
        | str s =>
          have hlist : stringifyChars (JsVal.str s) ++ rest =
              '"' :: ((s.data.map escapeChar).flatten ++ '"' :: rest) := by
            rw [stringifyChars, quoteString]
            simp
          rw [hlist]
          show (parseStringBody ((s.data.map escapeChar).flatten ++ '"' :: rest)).map
            (fun p => (JsVal.str (String.mk p.1), p.2)) = some (JsVal.str s, rest)
          rw [parseStringBody_quote]
          simp [String_mk_data]
        | arr xs =>
          cases xs with
          | nil =>
            rw [show stringifyChars (JsVal.arr []) ++ rest = '[' :: ']' :: rest
              from by rw [stringifyChars]; rfl]
            have hf : 1 ≤ f := by
              rw [jsize] at hsz
              omega
            cases f with
            | zero => omega
            | succ f2 => rfl
          | cons x xs =>
            have hsz' : jsizeList x xs + 3 ≤ f + 1 := by
              rw [jsize] at hsz
              omega
            have hlist : stringifyChars (JsVal.arr (x :: xs)) ++ rest =
                '[' :: (stringifyList x xs ++ ']' :: rest) := by
              rw [stringifyChars]
              simp
            rw [hlist]
            show parseElems f (stringifyList x xs ++ ']' :: rest) =
              some (JsVal.arr (x :: xs), rest)
            cases f with
            | zero => omega
            | succ f2 =>
              obtain ⟨c0, cs0, hSL, hne1, hne2⟩ := stringifyList_head x xs
              rw [hSL]
              rw [show ((c0 :: cs0) ++ ']' :: rest : List Char) =
                c0 :: (cs0 ++ ']' :: rest) from rfl]
              rw [parseElems]
              simp only [hne1, if_false]
              rw [show (c0 :: (cs0 ++ ']' :: rest) : List Char) =
                (c0 :: cs0) ++ ']' :: rest from rfl]
              rw [← hSL]
              rw [(ih f2 (by omega)).2.1 x xs rest (by omega)]
              rfl
        | obj fs =>
          cases fs with
          | nil =>
            rw [show stringifyChars (JsVal.obj []) ++ rest = '\x7b' :: '\x7d' :: rest
              from by rw [stringifyChars]; rfl]
            have hf : 1 ≤ f := by
              rw [jsize] at hsz
              omega
            cases f with
            | zero => omega
            | succ f2 => rfl
          | cons kv fs =>
            have hsz' : jsizeFields kv fs + 3 ≤ f + 1 := by
              rw [jsize] at hsz
              omega
            have hlist : stringifyChars (JsVal.obj (kv :: fs)) ++ rest =
                '\x7b' :: (stringifyFields kv fs ++ '\x7d' :: rest) := by
              rw [stringifyChars]
              simp
            rw [hlist]
            show parseMembers f (stringifyFields kv fs ++ '\x7d' :: rest) =
              some (JsVal.obj (kv :: fs), rest)
            cases f with
            | zero => omega
            | succ f2 =>
              obtain ⟨k, v⟩ := kv
              have hhead : ∃ tl, stringifyFields (k, v) fs = '"' :: tl := by
                cases fs with
                | nil =>
                  exact ⟨(k.data.map escapeChar).flatten ++
                    '"' :: ':' :: stringifyChars v, by
                      rw [stringifyFields, quoteString]
                      simp⟩
                | cons f3 fs3 =>
                  exact ⟨(k.data.map escapeChar).flatten ++
                    '"' :: ':' :: (stringifyChars v ++ ',' :: stringifyFields f3 fs3), by
                      rw [stringifyFields, quoteString]
                      simp⟩
              obtain ⟨tl, htl⟩ := hhead
              rw [htl]
              rw [show (('"' :: tl) ++ '\x7d' :: rest : List Char) =
                '"' :: (tl ++ '\x7d' :: rest) from rfl]
              rw [parseMembers]
              simp only [show ('"' = '\x7d') = False by simp, if_false]
              rw [show ('"' :: (tl ++ '\x7d' :: rest) : List Char) =
                ('"' :: tl) ++ '\x7d' :: rest from rfl]
              rw [← htl]
              rw [(ih f2 (by omega)).2.2 (k, v) fs rest (by omega)]
              rfl
    · intro x xs rest hsz
      cases fuel with
      | zero => omega
      | succ f =>
        rw [parseElemsNE]
        cases xs with
        | nil =>
          have hx : parseVal f (stringifyChars x ++ ']' :: rest) =
              some (x, ']' :: rest) := by
            have hj : jsize x ≤ f := by
              rw [jsizeList] at hsz
              omega
            exact (ih f (by omega)).1 x (']' :: rest) hj (delimOk_rbracket rest)
          rw [show stringifyList x [] ++ ']' :: rest = stringifyChars x ++ ']' :: rest
            from by rw [stringifyList]]
          rw [hx]
          rfl
        | cons y ys =>
          have hx1 : jsize x ≤ f := by
            rw [jsizeList] at hsz
            have := jsize_pos y
            omega
          have hlist : stringifyList x (y :: ys) ++ ']' :: rest =
              stringifyChars x ++ ',' :: (stringifyList y ys ++ ']' :: rest) := by
            rw [stringifyList]
            simp
          rw [hlist]
          have hx : parseVal f (stringifyChars x ++
              ',' :: (stringifyList y ys ++ ']' :: rest)) =
              some (x, ',' :: (stringifyList y ys ++ ']' :: rest)) :=
            (ih f (by omega)).1 x _ hx1 (delimOk_comma _)
          rw [hx]
          show (parseElemsNE f (stringifyList y ys ++ ']' :: rest)).map
            (fun p => (x :: p.1, p.2)) = some (x :: y :: ys, rest)
          have hys : parseElemsNE f (stringifyList y ys ++ ']' :: rest) =
              some (y :: ys, rest) := by
            have hj : jsizeList y ys + 1 ≤ f := by
              rw [jsizeList] at hsz
              have := jsize_pos x
              omega
            exact (ih f (by omega)).2.1 y ys rest hj
          rw [hys]
          rfl
    · intro kv fs rest hsz
      cases fuel with
      | zero => omega
      | succ f =>
        obtain ⟨k, v⟩ := kv
        cases fs with
        | nil =>
          have hlist : stringifyFields (k, v) [] ++ '\x7d' :: rest =
              '"' :: ((k.data.map escapeChar).flatten ++
                '"' :: ':' :: (stringifyChars v ++ '\x7d' :: rest)) := by
            rw [stringifyFields, quoteString]
            simp
          rw [hlist, parseMembersNE_step]
          have hv : parseVal f (stringifyChars v ++ '\x7d' :: rest) =
              some (v, '\x7d' :: rest) := by
            have hj : jsize v ≤ f := by
              rw [jsizeFields] at hsz
              omega
            exact (ih f (by omega)).1 v _ hj (delimOk_rbrace rest)
          rw [hv]
          rfl
        | cons f3 fs3 =>
          have hlist : stringifyFields (k, v) (f3 :: fs3) ++ '\x7d' :: rest =
              '"' :: ((k.data.map escapeChar).flatten ++
                '"' :: ':' :: (stringifyChars v ++
                  ',' :: (stringifyFields f3 fs3 ++ '\x7d' :: rest))) := by
            rw [stringifyFields, quoteString]
            simp
          rw [hlist, parseMembersNE_step]
          have hv : parseVal f (stringifyChars v ++
              ',' :: (stringifyFields f3 fs3 ++ '\x7d' :: rest)) =
              some (v, ',' :: (stringifyFields f3 fs3 ++ '\x7d' :: rest)) := by
            have hj : jsize v ≤ f := by
              rw [jsizeFields] at hsz
              have := jsize_pos f3.2
              omega
            exact (ih f (by omega)).1 v _ hj (delimOk_comma _)
          rw [hv]
          show (parseMembersNE f (stringifyFields f3 fs3 ++ '\x7d' :: rest)).map
            (fun p => ((k, v) :: p.1, p.2)) = some ((k, v) :: f3 :: fs3, rest)
          have hfs : parseMembersNE f (stringifyFields f3 fs3 ++ '\x7d' :: rest) =
              some (f3 :: fs3, rest) := by
            have hj : jsizeFields f3 fs3 + 1 ≤ f := by
              rw [jsizeFields] at hsz
              have := jsize_pos v
              omega
            exact (ih f (by omega)).2.2 f3 fs3 rest hj
          rw [hfs]
          rfl

mutual

/-- The fuel measure is covered by twice the printed length. -/
theorem jsize_succ_le (v : JsVal) : jsize v + 1 ≤ 2 * (stringifyChars v).length := by
  cases v with
  | null =>
    obtain ⟨c, cs, h, -, -⟩ := stringify_head JsVal.null
    rw [h]
    simp [jsize]
  | bool b =>
    obtain ⟨c, cs, h, -, -⟩ := stringify_head (JsVal.bool b)
    rw [h]
    simp [jsize]
  | num n =>
    obtain ⟨c, cs, h, -, -⟩ := stringify_head (JsVal.num n)
    rw [h]
    simp [jsize]
  | str s =>
    obtain ⟨c, cs, h, -, -⟩ := stringify_head (JsVal.str s)
    rw [h]
    simp [jsize]
  | arr xs =>
    cases xs with
    | nil =>
      rw [stringifyChars, jsize]
      simp
    | cons x xs =>
      rw [stringifyChars, jsize]
      have := jsizeList_succ_le x xs
      simp only [List.length_cons, List.length_append]
      simp at this ⊢
      omega
  | obj fs =>
    cases fs with
    | nil =>
      rw [stringifyChars, jsize]
      simp
    | cons f fs =>
      rw [stringifyChars, jsize]
      have := jsizeFields_succ_le f fs
      simp only [List.length_cons, List.length_append]
      simp at this ⊢
      omega
termination_by sizeOf v

/-- Fuel bound for a printed non-empty array body. -/
theorem jsizeList_succ_le (x : JsVal) (xs : List JsVal) :
    jsizeList x xs + 1 ≤ 2 * (stringifyList x xs).length := by
  cases xs with
  | nil =>
    rw [stringifyList, jsizeList]
    exact jsize_succ_le x
  | cons y ys =>
    rw [stringifyList, jsizeList]
    have h1 := jsize_succ_le x
    have h2 := jsizeList_succ_le y ys
    simp only [List.length_append, List.length_cons]
    omega
termination_by sizeOf x + sizeOf xs

/-- Fuel bound for a printed non-empty object body. -/
theorem jsizeFields_succ_le (kv : String × JsVal) (fs : List (String × JsVal)) :
    jsizeFields kv fs + 1 ≤ 2 * (stringifyFields kv fs).length := by
  obtain ⟨k, v⟩ := kv
  cases fs with
  | nil =>
    rw [stringifyFields, jsizeFields]
    have h1 := jsize_succ_le v
    simp only [List.length_append, List.length_cons]
    omega
  | cons f3 fs3 =>
    rw [stringifyFields, jsizeFields]
    have h1 := jsize_succ_le v
    have h2 := jsizeFields_succ_le f3 fs3
    simp only [List.length_append, List.length_cons]
    omega
termination_by sizeOf kv + sizeOf fs

end

/-- `JSON.parse` inverts `JSON.stringify` on every modelled JSON value. -/
theorem JSONparse_JSONstringify (v : JsVal) :
    JSONparse (JSONstringify v) = some v := by
  have hlen := jsize_succ_le v
  have h := (parse_stringify_all (2 * (stringifyChars v).length + 1)).1 v []
    (by omega) rfl
  rw [List.append_nil] at h
  show (match parseVal (2 * (stringifyChars v).length + 1) (stringifyChars v) with
    | some (v, []) => some v
    | _ => none) = some v
  rw [h]
/-- `JSON.stringify` of a value is never the empty string. -/
theorem JSONstringify_ne_empty (v : JsVal) : JSONstringify v ≠ "" := by
  obtain ⟨c, cs, h, -, -⟩ := stringify_head v
  unfold JSONstringify
  rw [h]
  intro hc
  have hd := congrArg String.data hc
  simp at hd

/-- C8: storing an attribute and immediately reading it back.  In the JS
class the value (string, number, boolean, or structured) is returned
deep-equal after a full `JSON.stringify`/`JSON.parse` round trip.  In the
Dart class the primitive types (string, int, bool, string list) round-trip
deep-equal through the typed `SharedPreferences` slots, but a structured
value comes back as its `jsonEncode` string, which is not deep-equal to
the stored structure. -/
theorem C8_attribute_round_trip (cfg : Config) (dc : DConfig) (ok : String → Bool)
    (st : Store) (prefs : Prefs) (field : String) (dflt : AttrOut)
    (ddflt : Option PrefVal) (v : JsVal) (s : String) (n : Int) (b : Bool)
    (l : List String) (j : JsVal) (hok : ok (dAttrKey dc field) = true) :
    get_attribute cfg (set_attribute cfg (some st) field v) field dflt =
      AttrOut.json v ∧
    (∃ p2 pv, setAttribute dc ok prefs field (.dstr s) = some p2 ∧
      getAttribute dc p2 field ddflt = some pv ∧
      representsVal (.dstr s) pv = true) ∧
    (∃ p2 pv, setAttribute dc ok prefs field (.dint n) = some p2 ∧
      getAttribute dc p2 field ddflt = some pv ∧
      representsVal (.dint n) pv = true) ∧
    (∃ p2 pv, setAttribute dc ok prefs field (.dbool b) = some p2 ∧
      getAttribute dc p2 field ddflt = some pv ∧
      representsVal (.dbool b) pv = true) ∧
    (∃ p2 pv, setAttribute dc ok prefs field (.dstrList l) = some p2 ∧
      getAttribute dc p2 field ddflt = some pv ∧
      representsVal (.dstrList l) pv = true) ∧
    (∃ p2, setAttribute dc ok prefs field (.djson j) = some p2 ∧
      getAttribute dc p2 field ddflt = some (.s (JSONstringify j)) ∧
      representsVal (.djson j) (.s (JSONstringify j)) = false) := by
  refine ⟨?_, ?_, ?_, ?_, ?_, ?_⟩
  · show get_attribute cfg
      (some (setItem st (attrKey cfg field) (JSONstringify v))) field dflt =
      AttrOut.json v
    simp only [get_attribute, getItem_setItem_self]
    rw [if_neg (JSONstringify_ne_empty v), JSONparse_JSONstringify]
  · refine ⟨prefsPut prefs (dAttrKey dc field) (.s s), .s s, ?_, ?_, ?_⟩
    · simp [setAttribute, prefsSetF, hok]
    · simp [getAttribute, prefsContainsKey, prefsGet_put_self]
    · simp [representsVal]
  · refine ⟨prefsPut prefs (dAttrKey dc field) (.i n), .i n, ?_, ?_, ?_⟩
    · simp [setAttribute, prefsSetF, hok]
    · simp [getAttribute, prefsContainsKey, prefsGet_put_self]
    · simp [representsVal]
  · refine ⟨prefsPut prefs (dAttrKey dc field) (.b b), .b b, ?_, ?_, ?_⟩
    · simp [setAttribute, prefsSetF, hok]
    · simp [getAttribute, prefsContainsKey, prefsGet_put_self]
    · simp [representsVal]
  · refine ⟨prefsPut prefs (dAttrKey dc field) (.sl l), .sl l, ?_, ?_, ?_⟩
    · simp [setAttribute, prefsSetF, hok]
    · simp [getAttribute, prefsContainsKey, prefsGet_put_self]
    · simp [representsVal]
  · refine ⟨prefsPut prefs (dAttrKey dc field) (.s (JSONstringify j)), ?_, ?_, rfl⟩
    · simp [setAttribute, prefsSetF, hok]
    · simp [getAttribute, prefsContainsKey, prefsGet_put_self]

/-- Witness for C8 at concrete inputs: the JS round trip on `null`. -/
theorem C8_witness :
    (fun _ => true : String → Bool) (dAttrKey ⟨"app", "pid", none⟩ "f") = true ∧
    get_attribute ⟨"a", "p", none⟩
      (set_attribute ⟨"a", "p", none⟩ (some []) "f" JsVal.null) "f"
      (AttrOut.raw "d") = AttrOut.json JsVal.null :=
  ⟨rfl, (C8_attribute_round_trip ⟨"a", "p", none⟩ ⟨"app", "pid", none⟩
    (fun _ => true) [] [] "f" (AttrOut.raw "d") none JsVal.null "s" 1 true []
    JsVal.null rfl).1⟩

/-- Counterexample to C8 as stated: in the Dart class a structured value
(here the empty JSON array) is stored as its `jsonEncode` string and read
back as that string, which is not deep-equal to the structured value. -/
theorem C8_counterexample :
    ∃ p2, setAttribute ⟨"app", "pid", none⟩ (fun _ => true) [] "f"
        (DartVal.djson (JsVal.arr [])) = some p2 ∧
      ∀ pv, getAttribute ⟨"app", "pid", none⟩ p2 "f" none = some pv →
        representsVal (DartVal.djson (JsVal.arr [])) pv = false := by
  refine ⟨prefsPut [] (dAttrKey ⟨"app", "pid", none⟩ "f")
      (.s (JSONstringify (JsVal.arr []))), ?_, ?_⟩
  · simp [setAttribute, prefsSetF]
  · intro pv h
    simp [getAttribute, prefsContainsKey, prefsGet_put_self] at h
    rw [← h]
    rfl

end PId